import Mathlib

/-!
MPU6050 accelerometer/gyroscope driver (`src/main/drivers/accgyro_mpu6050.c`)

A shallow embedding of the driver.  The C statics become the fields of `State`; everything the
driver does to the outside (bus transactions, delays, debug pins, sample consumers, the
terminal-fault signal) is appended to `State.trace` in program order.  The replies of the bus are
given by a `World`, indexed by the number of bus transactions issued so far, so that every
behaviour of the bus on a run of the (deterministic) driver is some `World`.

Machine integers: `uint8_t` values are naturals kept below 256, `uint16_t` below 65536, `int`
is `Int` (every `int` the driver computes stays within 32 bits), `int16_t` is an `Int` produced
by `toInt16`.  Memory handed to the bus is a `ByteBuf`; the `int16_t` view of `gyroAccBuffer`
is that of a little-endian host (the target is an ARM Cortex-M).
-/

namespace MPU6050

/-! ## Constants of the source -/

def MPU6050_ADDRESS : Nat := 0x68

def MPU_RA_XA_OFFS_H : Nat := 0x06
def MPU_RA_PRODUCT_ID : Nat := 0x0C
def MPU_RA_SMPLRT_DIV : Nat := 0x19
def MPU_RA_CONFIG : Nat := 0x1A
def MPU_RA_GYRO_CONFIG : Nat := 0x1B
def MPU_RA_ACCEL_CONFIG : Nat := 0x1C
def MPU_RA_FIFO_EN : Nat := 0x23
def MPU_RA_INT_PIN_CFG : Nat := 0x37
def MPU_RA_INT_ENABLE : Nat := 0x38
def MPU_RA_ACCEL_XOUT_H : Nat := 0x3B
def MPU_RA_GYRO_XOUT_H : Nat := 0x43
def MPU_RA_USER_CTRL : Nat := 0x6A
def MPU_RA_PWR_MGMT_1 : Nat := 0x6B
def MPU_RA_FIFO_COUNTH : Nat := 0x72
def MPU_RA_FIFO_R_W : Nat := 0x74
def MPU_RA_WHO_AM_I : Nat := 0x75

def MPU_RF_TEMP_FIFO_EN : Nat := 0x80
def MPU_RF_XG_FIFO_EN : Nat := 0x40
def MPU_RF_YG_FIFO_EN : Nat := 0x20
def MPU_RF_ZG_FIFO_EN : Nat := 0x10
def MPU_RF_ACCEL_FIFO_EN : Nat := 0x08
def MPU_RF_FIFO_EN : Nat := 0x40
def MPU_RF_FIFO_RESET : Nat := 0x04
def MPU_RF_DATA_RDY_EN : Nat := 1 <<< 0

/-! `enum lpf_e` (stored in the `uint8_t mpuLowPassFilter`) -/
def INV_FILTER_256HZ_NOLPF2 : Nat := 0
def INV_FILTER_188HZ : Nat := 1
def INV_FILTER_98HZ : Nat := 2
def INV_FILTER_42HZ : Nat := 3
def INV_FILTER_20HZ : Nat := 4
def INV_FILTER_10HZ : Nat := 5
def INV_FILTER_5HZ : Nat := 6
def INV_FILTER_2100HZ_NOLPF : Nat := 7

/-! `enum gyro_fsr_e`, `enum accel_fsr_e` -/
def INV_FSR_2000DPS : Nat := 3
def INV_FSR_8G : Nat := 2

/-- The `mpu6050Resolution_e` enumeration. -/
inductive mpu6050Resolution_e
  | MPU_6050_HALF_RESOLUTION
  | MPU_6050_FULL_RESOLUTION
  deriving DecidableEq, Repr

open mpu6050Resolution_e

/-- The debug pins toggled by `mpu6050FifoRead` (`DBP_MPU6050_1`, `DBP_MPU6050_2`). -/
inductive DbgPin
  | DBP_MPU6050_1
  | DBP_MPU6050_2
  deriving DecidableEq, Repr

/-- Modelled from the spec: the `mpu6050Config_t` structure is declared in a header that is not
part of the sources; the driver only uses its interrupt-pin identity (`intIO` in the source). -/
structure mpu6050Config_t where
  intPin : Nat
  deriving DecidableEq, Repr

/-- The values a driver function pointer (`acc->init`, `gyro->read`, ...) can hold: one of the
four static functions of this file, or something installed by other code. -/
inductive FnPtr
  | mpu6050AccInit
  | mpu6050AccRead
  | mpu6050GyroInit
  | mpu6050GyroRead
  | other (tag : Nat)
  deriving DecidableEq, Repr

/-- The fields of `acc_t` written by this driver. -/
structure acc_t where
  init : FnPtr
  read : FnPtr
  revisionCode : Char
  deriving DecidableEq, Repr

/-- The fields of `gyro_t` written by this driver.  The `float` field `scale` is represented by
the rational number its initialiser denotes (`1.0f / 16.4f`); rounding is not modelled. -/
structure gyro_t where
  init : FnPtr
  read : FnPtr
  scale : ℚ
  deriving DecidableEq

/-- The bytes of a buffer in memory, by byte offset. -/
structure ByteBuf where
  byte : Nat → Nat

/-- Everything the driver does to the outside, in program order. -/
inductive Event
  | delay (ms : Nat)
  | i2cRead (addr reg : Nat) (len : Int)
  | i2cWrite (addr reg data : Nat)
  | pinDbgToggle (pin : DbgPin)
  | accHandleData (x y z : Int)
  | gyroHandleData (x y z : Int)
  | failureMode (mode : Nat)
  | ioConfigGpio (pin : Nat)
  | extiHandlerInit
  | extiConfig (pin : Nat)
  | extiEnable (pin : Nat) (enable : Bool)
  deriving DecidableEq, Repr

/-- The outside of the driver.  `ack n` is the result of the `n`-th bus transaction issued (reads
and writes are counted together, from 0), `data n j` the byte found at offset `j` of the buffer
of the `n`-th transaction after it, `uninit n j` the byte an uninitialised local buffer handed
to the `n`-th transaction held before it, and `failureModeReturns` tells whether the external
`failureMode` comes back to its caller. -/
structure World where
  ack : Nat → Bool
  data : Nat → Nat → Nat
  uninit : Nat → Nat → Nat
  failureModeReturns : Bool

/-- The build-time feature switches (`#ifdef`). -/
structure BuildConfig where
  ACCGYRO_FIFO : Bool
  USE_MPU_DATA_READY_SIGNAL : Bool
  deriving DecidableEq, Repr

/-- The statics of the driver, the global `acc_1G`, the number of bus transactions issued so far
and the trace of outside events. -/
structure State where
  mpuLowPassFilter : Nat
  mpuAccelTrim : mpu6050Resolution_e
  mpu6050Config : Option mpu6050Config_t
  mpu6050GpioInitDone : Bool
  acc_1G : Nat
  xact : Nat
  trace : List Event

/-- The state at program start: `mpuLowPassFilter = INV_FILTER_42HZ`, the other statics zero. -/
def State.initial (acc1G : Nat) : State :=
  { mpuLowPassFilter := INV_FILTER_42HZ
    mpuAccelTrim := MPU_6050_HALF_RESOLUTION
    mpu6050Config := none
    mpu6050GpioInitDone := false
    acc_1G := acc1G
    xact := 0
    trace := [] }

/-- Append one outside event to the trace. -/
def State.emit (s : State) (e : Event) : State :=
  { s with trace := s.trace ++ [e] }

/-! ## External collaborators -/

/-- Modelled from the spec: `delay(ms)`, the blocking delay primitive. -/
def delay (s : State) (ms : Nat) : State :=
  s.emit (Event.delay ms)

/-- Modelled from the spec: `pinDbgToggle(pin)`, a debug output. -/
def pinDbgToggle (s : State) (pin : DbgPin) : State :=
  s.emit (Event.pinDbgToggle pin)

/-- Modelled from the spec: bus read `(address, register, length) -> (bytes, success)`.  The
first `len` bytes of `buf` are replaced by what the transaction delivers (bytes, so below 256);
the length is recorded as passed at the call site. -/
def i2cRead (w : World) (s : State) (addr reg : Nat) (len : Int) (buf : ByteBuf) :
    Bool × ByteBuf × State :=
  (w.ack s.xact,
   ⟨fun j => if (j : Int) < len then w.data s.xact j % 256 else buf.byte j⟩,
   { s with xact := s.xact + 1, trace := s.trace ++ [Event.i2cRead addr reg len] })

/-- Modelled from the spec: bus write `(address, register, byte) -> success`. -/
def i2cWrite (w : World) (s : State) (addr reg data : Nat) : Bool × State :=
  (w.ack s.xact,
   { s with xact := s.xact + 1, trace := s.trace ++ [Event.i2cWrite addr reg data] })

/-- An uninitialised local `uint8_t` buffer, as the `n = s.xact`-th transaction finds it. -/
def localBuf (w : World) (s : State) : ByteBuf :=
  ⟨fun j => w.uninit s.xact j % 256⟩

/-- Conversion of an `int` to `int16_t` (two's complement wrap-around). -/
def toInt16 (v : Int) : Int :=
  if v % 65536 < 32768 then v % 65536 else v % 65536 - 65536

/-! ## The driver -/

/-- Function `mpu6050GpioInit` (lines 240-256). -/
def mpu6050GpioInit (bc : BuildConfig) (s : State) : State :=
  if s.mpu6050GpioInitDone || s.mpu6050Config.isNone then s
  else
    let s1 :=
      match bc.USE_MPU_DATA_READY_SIGNAL, s.mpu6050Config with
      | true, some c =>
        (((s.emit (Event.ioConfigGpio c.intPin)).emit Event.extiHandlerInit).emit
          (Event.extiConfig c.intPin)).emit (Event.extiEnable c.intPin true)
      | _, _ => s
    { s1 with mpu6050GpioInitDone := true }

/-- Function `mpu6050Detect` (lines 258-278). -/
def mpu6050Detect (w : World) (s : State) : Bool × State :=
  let s1 := delay s 35
  let r := i2cRead w s1 MPU6050_ADDRESS MPU_RA_WHO_AM_I 1 (localBuf w s1)
  let ack := r.1
  let sig := r.2.1.byte 0
  let s2 := r.2.2
  if !ack then (false, s2)
  else if sig ≠ (MPU6050_ADDRESS &&& 0x7e) then (false, s2)
  else (true, s2)

/-- Function `mpu6050GyroDetect` (lines 326-357); `lpf` is a `uint16_t`. -/
def mpu6050GyroDetect (w : World) (s : State) (configToUse : Option mpu6050Config_t)
    (gyro : gyro_t) (lpf : Nat) : Bool × gyro_t × State :=
  let s0 := { s with mpu6050Config := configToUse }
  let d := mpu6050Detect w s0
  if !d.1 then (false, gyro, d.2)
  else
    let s1 := d.2
    let gyro1 := { gyro with init := FnPtr.mpu6050GyroInit }
    let gyro2 := { gyro1 with read := FnPtr.mpu6050GyroRead }
    let gyro3 := { gyro2 with scale := 1 / (164 / 10) }
    let s2 :=
      if lpf = 0xffff then { s1 with mpuLowPassFilter := INV_FILTER_256HZ_NOLPF2 }
      else if lpf ≥ 188 then { s1 with mpuLowPassFilter := INV_FILTER_188HZ }
      else if lpf ≥ 98 then { s1 with mpuLowPassFilter := INV_FILTER_98HZ }
      else if lpf ≥ 42 then { s1 with mpuLowPassFilter := INV_FILTER_42HZ }
      else if lpf ≥ 20 then { s1 with mpuLowPassFilter := INV_FILTER_20HZ }
      else if lpf ≥ 10 then { s1 with mpuLowPassFilter := INV_FILTER_10HZ }
      else { s1 with mpuLowPassFilter := INV_FILTER_5HZ }
    (true, gyro3, s2)

/-- Modelled from the spec: `failureMode(mode)`, the terminal-fault signal (declared outside the
sources).  The result tells whether control comes back to the caller. -/
def failureMode (w : World) (s : State) (mode : Nat) : Bool × State :=
  (w.failureModeReturns, s.emit (Event.failureMode mode))

/-- Function `mpu6050AccDetect` (lines 280-324).  The result is `none` when `failureMode` was
entered and did not return. -/
def mpu6050AccDetect (w : World) (s : State) (configToUse : Option mpu6050Config_t)
    (acc : acc_t) : Option Bool × acc_t × State :=
  let s0 := { s with mpu6050Config := configToUse }
  let d := mpu6050Detect w s0
  if !d.1 then (some false, acc, d.2)
  else
    let r := i2cRead w d.2 MPU6050_ADDRESS MPU_RA_XA_OFFS_H 6 (localBuf w d.2)
    let readBuffer := r.2.1
    let s1 := r.2.2
    let revision :=
      ((((readBuffer.byte 5 &&& 0x01) <<< 2) ||| ((readBuffer.byte 3 &&& 0x01) <<< 1)) |||
        (readBuffer.byte 1 &&& 0x01)) % 256
    let b : Bool × State :=
      if revision ≠ 0 then
        if revision = 1 then (true, { s1 with mpuAccelTrim := MPU_6050_HALF_RESOLUTION })
        else if revision = 2 then (true, { s1 with mpuAccelTrim := MPU_6050_FULL_RESOLUTION })
        else failureMode w s1 5
      else
        let r2 := i2cRead w s1 MPU6050_ADDRESS MPU_RA_PRODUCT_ID 1 (localBuf w s1)
        let productId := r2.2.1.byte 0
        let s2 := r2.2.2
        let revision2 := productId &&& 0x0F
        if revision2 = 0 then failureMode w s2 5
        else if revision2 = 4 then (true, { s2 with mpuAccelTrim := MPU_6050_HALF_RESOLUTION })
        else (true, { s2 with mpuAccelTrim := MPU_6050_FULL_RESOLUTION })
    if !b.1 then (none, acc, b.2)
    else
      let s3 := b.2
      let acc1 := { acc with init := FnPtr.mpu6050AccInit }
      let acc2 := { acc1 with read := FnPtr.mpu6050AccRead }
      let acc3 :=
        { acc2 with
          revisionCode := if s3.mpuAccelTrim = MPU_6050_HALF_RESOLUTION then 'o' else 'n' }
      (some true, acc3, s3)

/-- Function `mpu6050AccInit` (lines 359-371). -/
def mpu6050AccInit (bc : BuildConfig) (s : State) : State :=
  let s1 := mpu6050GpioInit bc s
  match s1.mpuAccelTrim with
  | MPU_6050_HALF_RESOLUTION => { s1 with acc_1G := 256 * 8 }
  | MPU_6050_FULL_RESOLUTION => { s1 with acc_1G := 512 * 8 }

/-- Function `mpu6050AccRead` (lines 373-384); `accData` is the caller's `int16_t` array. -/
def mpu6050AccRead (w : World) (s : State) (accData : Nat → Int) : (Nat → Int) × State :=
  let r := i2cRead w s MPU6050_ADDRESS MPU_RA_ACCEL_XOUT_H 6 (localBuf w s)
  let buf := r.2.1
  if !r.1 then (accData, r.2.2)
  else
    let a0 := Function.update accData 0 (toInt16 (((buf.byte 0 <<< 8) ||| buf.byte 1 : Nat) : Int))
    let a1 := Function.update a0 1 (toInt16 (((buf.byte 2 <<< 8) ||| buf.byte 3 : Nat) : Int))
    let a2 := Function.update a1 2 (toInt16 (((buf.byte 4 <<< 8) ||| buf.byte 5 : Nat) : Int))
    (a2, r.2.2)

/-- Function `mpu6050FifoEnable` (lines 438-443). -/
def mpu6050FifoEnable (w : World) (s : State) : State :=
  let s1 := (i2cWrite w s MPU6050_ADDRESS MPU_RA_USER_CTRL MPU_RF_FIFO_RESET).2
  let s2 := (i2cWrite w s1 MPU6050_ADDRESS MPU_RA_USER_CTRL MPU_RF_FIFO_EN).2
  (i2cWrite w s2 MPU6050_ADDRESS MPU_RA_FIFO_EN
    (((MPU_RF_XG_FIFO_EN ||| MPU_RF_YG_FIFO_EN) ||| MPU_RF_ZG_FIFO_EN) |||
      MPU_RF_ACCEL_FIFO_EN)).2

/-- Function `mpu6050GyroInit` (lines 386-416). -/
def mpu6050GyroInit (bc : BuildConfig) (w : World) (s : State) : State :=
  let s0 := mpu6050GpioInit bc s
  let s1 := (i2cWrite w s0 MPU6050_ADDRESS MPU_RA_PWR_MGMT_1 0x80).2
  let s2 := delay s1 100
  let s3 := (i2cWrite w s2 MPU6050_ADDRESS MPU_RA_PWR_MGMT_1 0x03).2
  let s4 :=
    if s3.mpuLowPassFilter = INV_FILTER_256HZ_NOLPF2 then
      (i2cWrite w s3 MPU6050_ADDRESS MPU_RA_SMPLRT_DIV 0x07).2
    else
      (i2cWrite w s3 MPU6050_ADDRESS MPU_RA_SMPLRT_DIV 0x00).2
  let s5 := (i2cWrite w s4 MPU6050_ADDRESS MPU_RA_CONFIG s4.mpuLowPassFilter).2
  let s6 := (i2cWrite w s5 MPU6050_ADDRESS MPU_RA_GYRO_CONFIG (INV_FSR_2000DPS <<< 3)).2
  let s7 := (i2cWrite w s6 MPU6050_ADDRESS MPU_RA_ACCEL_CONFIG (INV_FSR_8G <<< 3)).2
  let s8 := (i2cWrite w s7 MPU6050_ADDRESS MPU_RA_INT_PIN_CFG
    ((0 <<< 7) ||| (0 <<< 6) ||| (0 <<< 5) ||| (0 <<< 4) ||| (0 <<< 3) ||| (0 <<< 2) |||
      (1 <<< 1) ||| (0 <<< 0))).2
  let s9 := if bc.ACCGYRO_FIFO then mpu6050FifoEnable w s8 else s8
  if bc.USE_MPU_DATA_READY_SIGNAL then
    (i2cWrite w s9 MPU6050_ADDRESS MPU_RA_INT_ENABLE MPU_RF_DATA_RDY_EN).2
  else s9

/-- Function `mpu6050GyroRead` (lines 418-429); `gyroData` is the caller's `int16_t` array. -/
def mpu6050GyroRead (w : World) (s : State) (gyroData : Nat → Int) : (Nat → Int) × State :=
  let r := i2cRead w s MPU6050_ADDRESS MPU_RA_GYRO_XOUT_H 6 (localBuf w s)
  let buf := r.2.1
  if !r.1 then (gyroData, r.2.2)
  else
    let g0 := Function.update gyroData 0 (toInt16 (((buf.byte 0 <<< 8) ||| buf.byte 1 : Nat) : Int))
    let g1 := Function.update g0 1 (toInt16 (((buf.byte 2 <<< 8) ||| buf.byte 3 : Nat) : Int))
    let g2 := Function.update g1 2 (toInt16 (((buf.byte 4 <<< 8) ||| buf.byte 5 : Nat) : Int))
    (g2, r.2.2)

/-- Function `mpu6050GetFifoLen` (lines 431-436). -/
def mpu6050GetFifoLen (w : World) (s : State) : Int × State :=
  let r := i2cRead w s MPU6050_ADDRESS MPU_RA_FIFO_COUNTH 2 (localBuf w s)
  let buf := r.2.1
  ((((buf.byte 0 <<< 8) ||| buf.byte 1 : Nat) : Int), r.2.2)

/-- Function `mpu6050FifoFlush` (lines 445-449). -/
def mpu6050FifoFlush (w : World) (s : State) : State :=
  let s1 := (i2cWrite w s MPU6050_ADDRESS MPU_RA_USER_CTRL MPU_RF_FIFO_RESET).2
  (i2cWrite w s1 MPU6050_ADDRESS MPU_RA_USER_CTRL MPU_RF_FIFO_EN).2

/-- Modelled from the spec: the `MIN` macro of `common/maths.h` (not part of the sources),
"clamp the actual read length to `min(maxLen, reportedLength)`". -/
def MIN (a b : Int) : Int := if a < b then a else b

/-- The `do ... while` loop of `mpu6050FifoRead` (lines 454-459).  The counter argument is the
value `--tries` takes in the current pass: `tries` starts at 2, so the loop is entered with 1.
`%` is the truncating remainder of C. -/
def fifoLenLoop (w : World) (maxLen modulo : Int) : Nat → State → Int × State
  | 0, s =>
    let r := mpu6050GetFifoLen w s
    let s1 := pinDbgToggle r.2 DbgPin.DBP_MPU6050_1
    (r.1, s1)
  | tries + 1, s =>
    let r := mpu6050GetFifoLen w s
    let s1 := pinDbgToggle r.2 DbgPin.DBP_MPU6050_1
    if r.1 < maxLen ∧ Int.tmod r.1 modulo ≠ 0 then fifoLenLoop w maxLen modulo tries s1
    else (r.1, s1)

/-- Function `mpu6050FifoRead` (lines 451-467). -/
def mpu6050FifoRead (w : World) (s : State) (buffer : ByteBuf) (maxLen modulo : Int) :
    Int × ByteBuf × State :=
  let l := fifoLenLoop w maxLen modulo 1 s
  let fifoLen := l.1
  let len := MIN maxLen fifoLen
  let s1 := if len > 12 ∧ len ≤ 36 then pinDbgToggle l.2 DbgPin.DBP_MPU6050_2 else l.2
  if len ≠ 0 then
    let r := i2cRead w s1 MPU6050_ADDRESS MPU_RA_FIFO_R_W len buffer
    if !r.1 then (-1, r.2.1, r.2.2)
    else (len, r.2.1, r.2.2)
  else (len, buffer, s1)

/-- An `int16_t` read from the byte buffer at byte offset `off` (little-endian host). -/
def loadInt16 (buf : ByteBuf) (off : Nat) : Int :=
  toInt16 ((buf.byte off + 256 * buf.byte (off + 1) : Nat) : Int)

/-- An `int16_t` written to the byte buffer at byte offset `off` (little-endian host). -/
def storeInt16 (buf : ByteBuf) (off : Nat) (v : Int) : ByteBuf :=
  ⟨fun j =>
    if j = off then ((v % 65536) % 256).toNat
    else if j = off + 1 then ((v % 65536) / 256).toNat
    else buf.byte j⟩

/-- The compiler intrinsic `__builtin_bswap16` on a `uint16_t`. -/
def __builtin_bswap16 (x : Nat) : Nat :=
  ((x <<< 8) ||| (x >>> 8)) % 65536

/-- The statement `gyroAccBuffer[idx][i] = __builtin_bswap16(gyroAccBuffer[idx][i])`
(line 481); element `[idx][i]` of the `int16_t [8][6]` array lies at byte offset
`12 * idx + 2 * i`. -/
def swapElem (buf : ByteBuf) (idx i : Nat) : ByteBuf :=
  let off := 12 * idx + 2 * i
  let x := loadInt16 buf off
  storeInt16 buf off (toInt16 (__builtin_bswap16 (x % 65536).toNat : Nat))

/-- The `for` loop of lines 480-481 for record `idx`: `i = 0, ..., 5` in turn. -/
def swapRecord (buf : ByteBuf) (idx : Nat) : ByteBuf :=
  (List.range 6).foldl (fun b i => swapElem b idx i) buf

/-- Modelled from the spec: `accHandleData(ptr)`, the external accelerometer consumer, which
takes the three `int16_t` values at `ptr`. -/
def accHandleData (s : State) (buf : ByteBuf) (off : Nat) : State :=
  s.emit (Event.accHandleData (loadInt16 buf off) (loadInt16 buf (off + 2))
    (loadInt16 buf (off + 4)))

/-- Modelled from the spec: `gyroHandleData(ptr)`, the external gyroscope consumer, which takes
the three `int16_t` values at `ptr`. -/
def gyroHandleData (s : State) (buf : ByteBuf) (off : Nat) : State :=
  s.emit (Event.gyroHandleData (loadInt16 buf off) (loadInt16 buf (off + 2))
    (loadInt16 buf (off + 4)))

/-- The `while` loop of `mpu6050GyroAccFetch` (lines 475-485) over the bytes of
`gyroAccBuffer`.  The result is `none` when a record outside the 8 records of the array would
be accessed. -/
def fetchLoop (w : World) (len : Int) (idx : Nat) (buf : ByteBuf) (s : State) :
    Option (Int × State) :=
  if 0 < len then
    if len < 12 then some (-1, mpu6050FifoFlush w s)
    else if 8 ≤ idx then none
    else
      let buf1 := swapRecord buf idx
      let s1 := accHandleData s buf1 (12 * idx + 2 * 0)
      let s2 := gyroHandleData s1 buf1 (12 * idx + 2 * 3)
      fetchLoop w (len - 12) (idx + 1) buf1 s2
  else some ((idx : Int), s)
termination_by len.toNat
decreasing_by omega

/-- Function `mpu6050GyroAccFetch` (lines 470-487); `sizeof(gyroAccBuffer)` is 96. -/
def mpu6050GyroAccFetch (w : World) (s : State) : Option (Int × State) :=
  let r := mpu6050FifoRead w s (localBuf w s) 96 12
  fetchLoop w r.1 0 r.2.1 r.2.2

/-! ## Concrete worlds used to instantiate the theorems -/

/-- A bus on which every transaction is acknowledged and every byte read is `0x68`. -/
def worldPresent : World :=
  { ack := fun _ => true
    data := fun _ _ => 0x68
    uninit := fun _ _ => 0
    failureModeReturns := false }

/-- A `gyro_t` as other code may have left it. -/
def gyroBlank : gyro_t :=
  { init := FnPtr.other 0, read := FnPtr.other 0, scale := 0 }

/-- An `acc_t` as other code may have left it. -/
def accBlank : acc_t :=
  { init := FnPtr.other 0, read := FnPtr.other 0, revisionCode := 'x' }

/-- A world given by its acknowledgements and the bytes it delivers; `failureMode` is terminal
and uninitialised memory reads as zero. -/
def worldOf (ack : Nat → Bool) (data : Nat → Nat → Nat) : World :=
  { ack := ack, data := data, uninit := fun _ _ => 0, failureModeReturns := false }

/-- An output array holding 1, 2, 3. -/
def outBlank : Nat → Int := fun i => (i : Int) + 1

/-! ## Vocabulary of the statements -/

/-- The events appended to the trace between two states of one run. -/
def State.since (s0 s1 : State) : List Event :=
  s1.trace.drop s0.trace.length

/-- The bytes written to register `reg`, in order, in a list of events. -/
def writesTo (reg : Nat) : List Event → List Nat
  | [] => []
  | Event.i2cWrite _ r d :: es => if r = reg then d :: writesTo reg es else writesTo reg es
  | _ :: es => writesTo reg es

/-- The lengths requested by the reads of register `reg`, in order, in a list of events. -/
def readsOf (reg : Nat) : List Event → List Int
  | [] => []
  | Event.i2cRead _ r l :: es => if r = reg then l :: readsOf reg es else readsOf reg es
  | _ :: es => readsOf reg es

/-- The byte the `n`-th bus transaction leaves at offset `j` of its buffer. -/
def World.byte (w : World) (n j : Nat) : Nat :=
  w.data n j % 256

/-- The signed 16-bit value of the two bytes `hi`, `lo` as the documentation describes it:
`256 * hi + lo` when that is below 32768, and that value minus 65536 otherwise. -/
def signed16 (hi lo : Nat) : Int :=
  if 256 * hi + lo < 32768 then ((256 * hi + lo : Nat) : Int)
  else ((256 * hi + lo : Nat) : Int) - 65536

/-- The external calls `mpu6050GpioInit` makes from state `s` (none once it has run, none
without a configuration, none when the data-ready signal is not built in). -/
def gpioInitEvents (bc : BuildConfig) (s : State) : List Event :=
  if s.mpu6050GpioInitDone || s.mpu6050Config.isNone then []
  else
    match bc.USE_MPU_DATA_READY_SIGNAL, s.mpu6050Config with
    | true, some c =>
      [Event.ioConfigGpio c.intPin, Event.extiHandlerInit, Event.extiConfig c.intPin,
        Event.extiEnable c.intPin true]
    | _, _ => []

/-- The bus writes of `mpu6050FifoEnable`. -/
def fifoEnableEvents : List Event :=
  [Event.i2cWrite 0x68 0x6A 0x04, Event.i2cWrite 0x68 0x6A 0x40, Event.i2cWrite 0x68 0x23 0x78]

/-- The 3-bit self-test code of the 6-byte block `b` delivered by the `n`-th transaction:
`((b[5] & 1) << 2) | ((b[3] & 1) << 1) | (b[1] & 1)`. -/
def selfTestCode (w : World) (n : Nat) : Nat :=
  (((w.byte n 5 &&& 1) <<< 2) ||| ((w.byte n 3 &&& 1) <<< 1)) ||| (w.byte n 1 &&& 1)

/-- The low nibble `p & 0x0F` of the product-id byte `p` delivered by the `n`-th transaction. -/
def productNibble (w : World) (n : Nat) : Nat :=
  w.byte n 0 &&& 0x0F

/-- A present device (transaction 0 reads `0x68`) whose later reads deliver `b1`, `b3`, `b5`
at offsets 1, 3, 5 and zero elsewhere. -/
def worldSelfTest (b1 b3 b5 : Nat) : World :=
  worldOf (fun _ => true)
    (fun n j => if n = 0 then 0x68 else if j = 1 then b1 else if j = 3 then b3
      else if j = 5 then b5 else 0)

/-- A present device whose self-test block (transaction 1) is all zero and whose product-id
register (transaction 2) reads `p`. -/
def worldProduct (p : Nat) : World :=
  worldOf (fun _ => true) (fun n _ => if n = 0 then 0x68 else if n = 1 then 0 else p)

/-- The queue length the `n`-th transaction reports when it is a read of FIFO_COUNTH/COUNTL:
`(hi << 8) | lo` of the two bytes delivered. -/
def fifoLenAt (w : World) (n : Nat) : Int :=
  (((w.byte n 0 <<< 8) ||| w.byte n 1 : Nat) : Int)

/-- What one pass of the length loop of `mpu6050FifoRead` does to the outside: a 2-byte read
of FIFO_COUNTH and a toggle of debug pin 1. -/
def lenReadEvents : List Event :=
  [Event.i2cRead 0x68 0x72 2, Event.pinDbgToggle DbgPin.DBP_MPU6050_1]

/-- Whether the first reported length makes `mpu6050FifoRead` read the length again: it is
below `maxLen` and not a multiple of the record size. -/
def fifoRetry (w : World) (n : Nat) (maxLen modulo : Int) : Bool :=
  decide (fifoLenAt w n < maxLen ∧ fifoLenAt w n % modulo ≠ 0)

/-- The number of the transaction that delivers the queue length `mpu6050FifoRead` accepts,
for a call whose first transaction has number `n`. -/
def fifoLastRead (w : World) (n : Nat) (maxLen modulo : Int) : Nat :=
  if fifoRetry w n maxLen modulo then n + 1 else n

/-- The events of a call of `mpu6050FifoRead` whose first transaction has number `n`. -/
def fifoReadEvents (w : World) (n : Nat) (maxLen modulo : Int) : List Event :=
  (if fifoRetry w n maxLen modulo then lenReadEvents ++ lenReadEvents else lenReadEvents) ++
  (if 12 < min maxLen (fifoLenAt w (fifoLastRead w n maxLen modulo)) ∧
      min maxLen (fifoLenAt w (fifoLastRead w n maxLen modulo)) ≤ 36
    then [Event.pinDbgToggle DbgPin.DBP_MPU6050_2] else []) ++
  (if min maxLen (fifoLenAt w (fifoLastRead w n maxLen modulo)) = 0 then []
    else [Event.i2cRead 0x68 0x74 (min maxLen (fifoLenAt w (fifoLastRead w n maxLen modulo)))])

/-- The events of `k` consecutive passes of the length loop of `mpu6050FifoRead`. -/
def lenReads : Nat → List Event
  | 0 => []
  | k + 1 => lenReadEvents ++ lenReads k

/-- A bus that acknowledges everything, reports the queue length `256 * hi + lo` and delivers
the byte `b` everywhere else. -/
def worldFifo (hi lo b : Nat) : World :=
  worldOf (fun _ => true) (fun _ j => if j = 0 then hi else if j = 1 then lo else b)

/-- The signed 16-bit value carried by the big-endian byte pair `hi`, `lo`: the `int16_t`
conversion of `(hi << 8) | lo`. -/
def decodeBytes (hi lo : Nat) : Int :=
  toInt16 (((hi <<< 8) ||| lo : Nat) : Int)

/-- The value decoded from the bytes of `B` at offsets `j`, `j + 1`. -/
def decodeBE (B : Nat → Nat) (j : Nat) : Int :=
  decodeBytes (B j) (B (j + 1))

/-- The two consumer calls for record `k` of the byte sequence `B`: the accelerometer consumer
on the values at byte offsets `12k + 0, 2, 4`, then the gyroscope consumer on those at
`12k + 6, 8, 10`. -/
def recordCalls (B : Nat → Nat) (k : Nat) : List Event :=
  [Event.accHandleData (decodeBE B (12 * k)) (decodeBE B (12 * k + 2)) (decodeBE B (12 * k + 4)),
   Event.gyroHandleData (decodeBE B (12 * k + 6)) (decodeBE B (12 * k + 8))
     (decodeBE B (12 * k + 10))]

/-- The consumer calls for the records `first, first + 1, ..., first + n - 1`, in that order. -/
def callsFrom (B : Nat → Nat) : Nat → Nat → List Event
  | _, 0 => []
  | first, n + 1 => recordCalls B first ++ callsFrom B (first + 1) n

/-- The consumer calls for the records `0 .. n - 1` of `B`, in increasing order. -/
def consumerCalls (B : Nat → Nat) (n : Nat) : List Event :=
  callsFrom B 0 n

/-- The two bus writes of `mpu6050FifoFlush`: FIFO_RESET, then FIFO_EN, to USER_CTRL. -/
def flushEvents : List Event :=
  [Event.i2cWrite 0x68 0x6A 0x04, Event.i2cWrite 0x68 0x6A 0x40]

/-- The number of bytes `mpu6050GyroAccFetch` drains in a call whose first transaction has
number `n`: the accepted queue length clamped to the 96 bytes of `gyroAccBuffer`. -/
def fetchLen (w : World) (n : Nat) : Nat :=
  (min 96 (fifoLenAt w (fifoLastRead w n 96 12))).toNat

/-- Whether a call of `mpu6050GyroAccFetch` whose first transaction has number `n` gets bytes
to deframe: the clamped length is not zero and the burst read is acknowledged. -/
def fetchGotData (w : World) (n : Nat) : Bool :=
  decide (fetchLen w n ≠ 0) && w.ack (fifoLastRead w n 96 12 + 1)

/-- A bus on which no transaction is acknowledged; every buffer is left holding `0x68`. -/
def worldSilent : World :=
  worldOf (fun _ => false) (fun _ _ => 0x68)

/-- A build without the optional FIFO and data-ready features. -/
def buildPlain : BuildConfig :=
  { ACCGYRO_FIFO := false, USE_MPU_DATA_READY_SIGNAL := false }

/-- Whether an event is a call of the accelerometer consumer. -/
def Event.isAcc : Event → Bool
  | Event.accHandleData _ _ _ => true
  | _ => false

/-- Whether an event is a call of the gyroscope consumer. -/
def Event.isGyro : Event → Bool
  | Event.gyroHandleData _ _ _ => true
  | _ => false

/-- The number of calls of the accelerometer consumer in a list of events. -/
def accCalls (es : List Event) : Nat :=
  es.countP Event.isAcc

/-- The number of calls of the gyroscope consumer in a list of events. -/
def gyroCalls (es : List Event) : Nat :=
  es.countP Event.isGyro

/-- A bus that reports a queue length of 96 bytes and acknowledges every transaction but the
one numbered 1. -/
def worldBurstFails : World :=
  worldOf (fun n => decide (n ≠ 1)) (fun _ j => if j = 1 then 96 else 0)

/-! ## Arithmetic of bytes -/

theorem shift_or_byte (a b : Nat) (hb : b < 256) : (a <<< 8) ||| b = 256 * a + b := by
  rw [Nat.shiftLeft_eq]
  have h := Nat.mul_add_lt_is_or (i := 8) (b := b) (by simpa using hb) a
  rw [Nat.mul_comm a (2 ^ 8), ← h]

theorem toInt16_bytes (a b : Nat) (ha : a < 256) (hb : b < 256) :
    toInt16 (((a <<< 8) ||| b : Nat) : Int) = signed16 a b := by
  rw [shift_or_byte a b hb]
  unfold toInt16 signed16
  have h1 : ((256 * a + b : Nat) : Int) % 65536 = ((256 * a + b : Nat) : Int) := by omega
  rw [h1]
  split_ifs <;> omega

theorem State.since_append (s0 s1 : State) (es : List Event) (h : s1.trace = s0.trace ++ es) :
    State.since s0 s1 = es := by
  simp [State.since, h]

theorem writesTo_append (reg : Nat) (a b : List Event) :
    writesTo reg (a ++ b) = writesTo reg a ++ writesTo reg b := by
  induction a with
  | nil => rfl
  | cons e es ih =>
    rw [List.cons_append]
    cases e <;> simp only [writesTo] <;> first | exact ih | (split_ifs <;> simp [ih])

theorem readsOf_append (reg : Nat) (a b : List Event) :
    readsOf reg (a ++ b) = readsOf reg a ++ readsOf reg b := by
  induction a with
  | nil => rfl
  | cons e es ih =>
    rw [List.cons_append]
    cases e <;> simp only [readsOf] <;> first | exact ih | (split_ifs <;> simp [ih])

/-! ## Traces of the configuration functions -/

theorem mpu6050GpioInit_trace (bc : BuildConfig) (s : State) :
    (mpu6050GpioInit bc s).trace = s.trace ++ gpioInitEvents bc s := by
  unfold mpu6050GpioInit gpioInitEvents
  split_ifs
  · simp
  · split <;> simp [State.emit]

theorem mpu6050GpioInit_filter (bc : BuildConfig) (s : State) :
    (mpu6050GpioInit bc s).mpuLowPassFilter = s.mpuLowPassFilter := by
  unfold mpu6050GpioInit
  split_ifs
  · rfl
  · split <;> simp [State.emit]

theorem mpu6050GpioInit_trim (bc : BuildConfig) (s : State) :
    (mpu6050GpioInit bc s).mpuAccelTrim = s.mpuAccelTrim := by
  unfold mpu6050GpioInit
  split_ifs
  · rfl
  · split <;> simp [State.emit]

theorem mpu6050GpioInit_xact (bc : BuildConfig) (s : State) :
    (mpu6050GpioInit bc s).xact = s.xact := by
  unfold mpu6050GpioInit
  split_ifs
  · rfl
  · split <;> simp [State.emit]

theorem writesTo_gpioInitEvents (reg : Nat) (bc : BuildConfig) (s : State) :
    writesTo reg (gpioInitEvents bc s) = [] := by
  unfold gpioInitEvents
  split_ifs
  · rfl
  · split <;> rfl

/-- The events of `mpu6050GyroInit`, in order. -/
theorem mpu6050GyroInit_trace (bc : BuildConfig) (w : World) (s : State) :
    (mpu6050GyroInit bc w s).trace =
      s.trace ++ (gpioInitEvents bc s ++
        [Event.i2cWrite 0x68 0x6B 0x80, Event.delay 100, Event.i2cWrite 0x68 0x6B 0x03,
         Event.i2cWrite 0x68 0x19 (if s.mpuLowPassFilter = 0 then 7 else 0),
         Event.i2cWrite 0x68 0x1A s.mpuLowPassFilter,
         Event.i2cWrite 0x68 0x1B 0x18, Event.i2cWrite 0x68 0x1C 0x10,
         Event.i2cWrite 0x68 0x37 0x02] ++
        (if bc.ACCGYRO_FIFO then fifoEnableEvents else []) ++
        (if bc.USE_MPU_DATA_READY_SIGNAL then [Event.i2cWrite 0x68 0x38 1] else [])) := by
  have ht := mpu6050GpioInit_trace bc s
  have hf := mpu6050GpioInit_filter bc s
  have c1 : (INV_FSR_2000DPS <<< 3 : Nat) = 0x18 := by decide
  have c2 : (INV_FSR_8G <<< 3 : Nat) = 0x10 := by decide
  have c3 : ((0 <<< 7) ||| (0 <<< 6) ||| (0 <<< 5) ||| (0 <<< 4) ||| (0 <<< 3) ||| (0 <<< 2) |||
      (1 <<< 1) ||| (0 <<< 0) : Nat) = 0x02 := by decide
  have c4 : ((((MPU_RF_XG_FIFO_EN ||| MPU_RF_YG_FIFO_EN) ||| MPU_RF_ZG_FIFO_EN) |||
      MPU_RF_ACCEL_FIFO_EN) : Nat) = 0x78 := by decide
  have c5 : MPU_RF_DATA_RDY_EN = 1 := by decide
  cases hfifo : bc.ACCGYRO_FIFO <;> cases hrdy : bc.USE_MPU_DATA_READY_SIGNAL <;>
    by_cases h0 : s.mpuLowPassFilter = 0 <;>
    simp [mpu6050GyroInit, mpu6050FifoEnable, fifoEnableEvents, i2cWrite, delay, State.emit, ht,
      hf, hfifo, hrdy, h0, c1, c2, c3, c4, c5, MPU6050_ADDRESS, MPU_RA_PWR_MGMT_1,
      MPU_RA_SMPLRT_DIV, MPU_RA_CONFIG, MPU_RA_GYRO_CONFIG, MPU_RA_ACCEL_CONFIG,
      MPU_RA_INT_PIN_CFG, MPU_RA_INT_ENABLE, MPU_RA_USER_CTRL, MPU_RA_FIFO_EN,
      MPU_RF_FIFO_RESET, MPU_RF_FIFO_EN, INV_FILTER_256HZ_NOLPF2]

theorem mpu6050Detect_state (w : World) (s : State) :
    (mpu6050Detect w s).2 =
      { s with xact := s.xact + 1
               trace := s.trace ++ [Event.delay 35,
                 Event.i2cRead MPU6050_ADDRESS MPU_RA_WHO_AM_I 1] } := by
  simp only [mpu6050Detect, i2cRead, delay, State.emit]
  split_ifs <;> simp

theorem mpu6050AccInit_acc_1G (bc : BuildConfig) (s : State) :
    (mpu6050AccInit bc s).acc_1G =
      (match s.mpuAccelTrim with
       | MPU_6050_HALF_RESOLUTION => 2048
       | MPU_6050_FULL_RESOLUTION => 4096) := by
  have h := mpu6050GpioInit_trim bc s
  unfold mpu6050AccInit
  cases ht : s.mpuAccelTrim <;> rw [ht] at h <;> simp [h]

theorem selfTestCode_cases (w : World) (n : Nat) :
    ∃ x y z : Nat, x < 2 ∧ y < 2 ∧ z < 2 ∧ w.data n 5 % 256 % 2 = x ∧ w.data n 3 % 256 % 2 = y ∧
      w.data n 1 % 256 % 2 = z ∧ selfTestCode w n = 4 * x + 2 * y + z := by
  refine ⟨_, _, _, Nat.mod_lt _ (by norm_num), Nat.mod_lt _ (by norm_num),
    Nat.mod_lt _ (by norm_num), rfl, rfl, rfl, ?_⟩
  simp only [selfTestCode, World.byte, Nat.and_one_is_mod]
  rcases Nat.mod_two_eq_zero_or_one (w.data n 5 % 256) with h5 | h5 <;>
  rcases Nat.mod_two_eq_zero_or_one (w.data n 3 % 256) with h3 | h3 <;>
  rcases Nat.mod_two_eq_zero_or_one (w.data n 1 % 256) with h1 | h1 <;>
  simp [h5, h3, h1]

/-! ## The FIFO drain -/

theorem fifoLenAt_eq (w : World) (n : Nat) :
    fifoLenAt w n = ((256 * w.byte n 0 + w.byte n 1 : Nat) : Int) := by
  unfold fifoLenAt
  rw [shift_or_byte _ _ (show w.byte n 1 < 256 from Nat.mod_lt _ (by norm_num))]

theorem fifoLenAt_range (w : World) (n : Nat) : 0 ≤ fifoLenAt w n ∧ fifoLenAt w n ≤ 65535 := by
  rw [fifoLenAt_eq]
  have h0 : w.byte n 0 < 256 := Nat.mod_lt _ (by norm_num)
  have h1 : w.byte n 1 < 256 := Nat.mod_lt _ (by norm_num)
  omega

theorem MIN_eq_min (a b : Int) : MIN a b = min a b := by
  unfold MIN
  split_ifs <;> omega

theorem mpu6050GetFifoLen_eq (w : World) (s : State) :
    mpu6050GetFifoLen w s =
      (fifoLenAt w s.xact,
        { s with xact := s.xact + 1, trace := s.trace ++ [Event.i2cRead 0x68 0x72 2] }) := by
  simp [mpu6050GetFifoLen, i2cRead, fifoLenAt, World.byte, MPU6050_ADDRESS, MPU_RA_FIFO_COUNTH]

/-- The length loop of `mpu6050FifoRead`, entered with `tries = 2`. -/
theorem fifoLenLoop_eq (w : World) (s : State) (maxLen modulo : Int) (hmod : 0 < modulo) :
    fifoLenLoop w maxLen modulo 1 s =
      (fifoLenAt w (fifoLastRead w s.xact maxLen modulo),
        { s with
          xact := fifoLastRead w s.xact maxLen modulo + 1
          trace := s.trace ++
            (if fifoRetry w s.xact maxLen modulo then lenReadEvents ++ lenReadEvents
             else lenReadEvents) }) := by
  have h0 := (fifoLenAt_range w s.xact).1
  have ht : Int.tmod (fifoLenAt w s.xact) modulo = fifoLenAt w s.xact % modulo :=
    Int.tmod_eq_emod h0 (le_of_lt hmod)
  by_cases hr : fifoLenAt w s.xact < maxLen ∧ fifoLenAt w s.xact % modulo ≠ 0
  · have hr2 : fifoRetry w s.xact maxLen modulo = true := decide_eq_true hr
    simp [fifoLenLoop, mpu6050GetFifoLen_eq, pinDbgToggle, State.emit, ht, hr, hr2,
      fifoLastRead, lenReadEvents]
  · have hr2 : fifoRetry w s.xact maxLen modulo = false := decide_eq_false hr
    have hr3 : ¬ (fifoLenAt w s.xact < maxLen ∧ ¬ fifoLenAt w s.xact % modulo = 0) := hr
    simp only [fifoLenLoop, mpu6050GetFifoLen_eq, pinDbgToggle, State.emit, ht, ne_eq, hr3,
      if_false, hr2, fifoLastRead, lenReadEvents]
    simp

/-- The value returned by `mpu6050FifoRead`. -/
theorem mpu6050FifoRead_ret (w : World) (s : State) (buffer : ByteBuf) (maxLen modulo : Int)
    (hmod : 0 < modulo) :
    (mpu6050FifoRead w s buffer maxLen modulo).1 =
      (if min maxLen (fifoLenAt w (fifoLastRead w s.xact maxLen modulo)) = 0 then 0
       else if w.ack (fifoLastRead w s.xact maxLen modulo + 1) = true then
         min maxLen (fifoLenAt w (fifoLastRead w s.xact maxLen modulo))
       else -1) := by
  simp only [mpu6050FifoRead, fifoLenLoop_eq w s maxLen modulo hmod, MIN_eq_min, i2cRead,
    pinDbgToggle, State.emit]
  by_cases h0 : min maxLen (fifoLenAt w (fifoLastRead w s.xact maxLen modulo)) = 0
  · simp [h0]
  · cases hack : w.ack (fifoLastRead w s.xact maxLen modulo + 1) <;>
      split_ifs <;> simp_all

/-- The state left by `mpu6050FifoRead`. -/
theorem mpu6050FifoRead_state (w : World) (s : State) (buffer : ByteBuf) (maxLen modulo : Int)
    (hmod : 0 < modulo) :
    (mpu6050FifoRead w s buffer maxLen modulo).2.2 =
      { s with
        xact := fifoLastRead w s.xact maxLen modulo + 1 +
          (if min maxLen (fifoLenAt w (fifoLastRead w s.xact maxLen modulo)) = 0 then 0 else 1)
        trace := s.trace ++ fifoReadEvents w s.xact maxLen modulo } := by
  simp only [mpu6050FifoRead, fifoLenLoop_eq w s maxLen modulo hmod, MIN_eq_min, i2cRead,
    pinDbgToggle, State.emit, fifoReadEvents, MPU6050_ADDRESS, MPU_RA_FIFO_R_W]
  by_cases h0 : min maxLen (fifoLenAt w (fifoLastRead w s.xact maxLen modulo)) = 0
  · simp [h0]
  · cases hack : w.ack (fifoLastRead w s.xact maxLen modulo + 1) <;>
      split_ifs <;> simp_all

/-- The buffer left by `mpu6050FifoRead`. -/
theorem mpu6050FifoRead_buffer (w : World) (s : State) (buffer : ByteBuf)
    (maxLen modulo : Int) (hmod : 0 < modulo) (j : Nat) :
    (mpu6050FifoRead w s buffer maxLen modulo).2.1.byte j =
      (if (j : Int) < min maxLen (fifoLenAt w (fifoLastRead w s.xact maxLen modulo)) ∧
          min maxLen (fifoLenAt w (fifoLastRead w s.xact maxLen modulo)) ≠ 0 then
        w.byte (fifoLastRead w s.xact maxLen modulo + 1) j
       else buffer.byte j) := by
  simp only [mpu6050FifoRead, fifoLenLoop_eq w s maxLen modulo hmod, MIN_eq_min, i2cRead,
    pinDbgToggle, State.emit, World.byte]
  by_cases h0 : min maxLen (fifoLenAt w (fifoLastRead w s.xact maxLen modulo)) = 0
  · simp [h0]
  · cases hack : w.ack (fifoLastRead w s.xact maxLen modulo + 1) <;>
      split_ifs <;> simp_all

/-- A call of `mpu6050FifoRead` as a whole: `k + 1` length reads (`k` is 0 or 1), then the
optional debug toggle, then the burst read when the clamped length is not zero. -/
theorem mpu6050FifoRead_run (w : World) (s : State) (buffer : ByteBuf) (maxLen modulo : Int)
    (hmod : 0 < modulo) :
    ∃ k : Nat, k ≤ 1 ∧ fifoLastRead w s.xact maxLen modulo = s.xact + k ∧
      (mpu6050FifoRead w s buffer maxLen modulo).1 =
        (if min maxLen (fifoLenAt w (s.xact + k)) = 0 then 0
         else if w.ack (s.xact + k + 1) = true then min maxLen (fifoLenAt w (s.xact + k))
         else -1) ∧
      State.since s (mpu6050FifoRead w s buffer maxLen modulo).2.2 =
        lenReads (k + 1) ++
          ((if 12 < min maxLen (fifoLenAt w (s.xact + k)) ∧
              min maxLen (fifoLenAt w (s.xact + k)) ≤ 36
            then [Event.pinDbgToggle DbgPin.DBP_MPU6050_2] else []) ++
           (if min maxLen (fifoLenAt w (s.xact + k)) = 0 then []
            else [Event.i2cRead 0x68 0x74 (min maxLen (fifoLenAt w (s.xact + k)))])) := by
  have hret := mpu6050FifoRead_ret w s buffer maxLen modulo hmod
  have hst := mpu6050FifoRead_state w s buffer maxLen modulo hmod
  have hsince : State.since s (mpu6050FifoRead w s buffer maxLen modulo).2.2 =
      fifoReadEvents w s.xact maxLen modulo := by
    rw [hst]
    simp [State.since]
  cases hr : fifoRetry w s.xact maxLen modulo
  · have hl : fifoLastRead w s.xact maxLen modulo = s.xact + 0 := by simp [fifoLastRead, hr]
    refine ⟨0, by omega, hl, ?_, ?_⟩
    · rw [hret, hl]
    · rw [hsince]
      simp only [fifoReadEvents, hl, hr, lenReads]
      simp
  · have hl : fifoLastRead w s.xact maxLen modulo = s.xact + 1 := by simp [fifoLastRead, hr]
    refine ⟨1, le_refl 1, hl, ?_, ?_⟩
    · rw [hret, hl]
    · rw [hsince]
      simp only [fifoReadEvents, hl, hr, lenReads]
      simp

theorem readsOf_lenReads_data (k : Nat) : readsOf MPU_RA_FIFO_R_W (lenReads k) = [] := by
  induction k with
  | zero => rfl
  | succ k ih =>
    rw [lenReads, readsOf_append, ih]
    simp [lenReadEvents, readsOf, MPU_RA_FIFO_R_W]

/-! ## Byte order conversion -/

theorem toInt16_emod (n : Nat) (h : n < 65536) : toInt16 (n : Int) % 65536 = (n : Int) := by
  unfold toInt16
  split_ifs <;> omega

theorem bswap16_bytes (a b : Nat) (ha : a < 256) (hb : b < 256) :
    __builtin_bswap16 (a + 256 * b) = 256 * a + b := by
  unfold __builtin_bswap16
  have h1 : (a + 256 * b) >>> 8 = b := by
    rw [Nat.shiftRight_eq_div_pow]
    omega
  have h2 : (a + 256 * b) <<< 8 = 2 ^ 8 * (a + 256 * b) := by
    rw [Nat.shiftLeft_eq, Nat.mul_comm]
  rw [h1, h2, ← Nat.mul_add_lt_is_or (by simpa using hb)]
  omega

theorem toInt16_toNat (a b : Nat) (ha : a < 256) (hb : b < 256) :
    (toInt16 ((a + 256 * b : Nat) : Int) % 65536).toNat = a + 256 * b := by
  have hu : a + 256 * b < 65536 := by omega
  rw [toInt16_emod _ hu]
  exact Int.toNat_ofNat _

theorem low_byte (a b : Nat) (hb : b < 256) :
    (((256 * a + b : Nat) : Int) % 256).toNat = b := by omega

theorem high_byte (a b : Nat) (hb : b < 256) :
    (((256 * a + b : Nat) : Int) / 256).toNat = a := by omega

/-- On bytes, line 481 exchanges the two bytes of element `[idx][i]`. -/
theorem swapElem_eq (buf : ByteBuf) (idx i : Nat) (hbuf : ∀ j, buf.byte j < 256) (j : Nat) :
    (swapElem buf idx i).byte j =
      (if j = 12 * idx + 2 * i then buf.byte (12 * idx + 2 * i + 1)
       else if j = 12 * idx + 2 * i + 1 then buf.byte (12 * idx + 2 * i)
       else buf.byte j) := by
  have ha := hbuf (12 * idx + 2 * i)
  have hb := hbuf (12 * idx + 2 * i + 1)
  have hv : 256 * buf.byte (12 * idx + 2 * i) + buf.byte (12 * idx + 2 * i + 1) < 65536 := by
    omega
  simp only [swapElem, loadInt16, storeInt16, toInt16_toNat _ _ ha hb, bswap16_bytes _ _ ha hb,
    toInt16_emod _ hv, low_byte _ _ hb, high_byte _ _ hb]

theorem swapElem_lt (buf : ByteBuf) (idx i : Nat) (hbuf : ∀ j, buf.byte j < 256) (j : Nat) :
    (swapElem buf idx i).byte j < 256 := by
  rw [swapElem_eq buf idx i hbuf]
  split_ifs <;> exact hbuf _

/-- The first `m` passes of the `for` loop at line 480 exchange the bytes of the first `m`
elements of record `idx` and touch nothing else. -/
theorem swapPasses_eq (buf : ByteBuf) (idx : Nat) (hbuf : ∀ j, buf.byte j < 256) (m : Nat) :
    (∀ j, ((List.range m).foldl (fun b i => swapElem b idx i) buf).byte j < 256) ∧
    (∀ j, ((List.range m).foldl (fun b i => swapElem b idx i) buf).byte j =
      (if 12 * idx ≤ j ∧ j < 12 * idx + 2 * m then
        (if (j - 12 * idx) % 2 = 0 then buf.byte (j + 1) else buf.byte (j - 1))
       else buf.byte j)) := by
  induction m with
  | zero =>
    refine ⟨fun j => by simpa using hbuf j, fun j => ?_⟩
    have hno : ¬ (12 * idx ≤ j ∧ j < 12 * idx + 2 * 0) := by omega
    rw [if_neg hno]
    rfl
  | succ m ih =>
    obtain ⟨hlt, heq⟩ := ih
    rw [List.range_succ, List.foldl_append]
    simp only [List.foldl]
    refine ⟨swapElem_lt _ idx m hlt, fun j => ?_⟩
    rw [swapElem_eq _ idx m hlt, heq, heq, heq]
    split_ifs <;> first | omega | (congr 1; omega)

/-- The `for` loop at line 480 exchanges the bytes of each of the six elements of record `idx`
and touches nothing else. -/
theorem swapRecord_eq (buf : ByteBuf) (idx : Nat) (hbuf : ∀ j, buf.byte j < 256) (j : Nat) :
    (swapRecord buf idx).byte j =
      (if 12 * idx ≤ j ∧ j < 12 * idx + 12 then
        (if (j - 12 * idx) % 2 = 0 then buf.byte (j + 1) else buf.byte (j - 1))
       else buf.byte j) :=
  (swapPasses_eq buf idx hbuf 6).2 j

theorem swapRecord_lt (buf : ByteBuf) (idx : Nat) (hbuf : ∀ j, buf.byte j < 256) (j : Nat) :
    (swapRecord buf idx).byte j < 256 := by
  rw [swapRecord_eq buf idx hbuf]
  split_ifs <;> exact hbuf _

theorem swapRecord_outside (buf : ByteBuf) (idx : Nat) (hbuf : ∀ j, buf.byte j < 256) (j : Nat)
    (hj : 12 * (idx + 1) ≤ j) : (swapRecord buf idx).byte j = buf.byte j := by
  rw [swapRecord_eq buf idx hbuf, if_neg (by omega)]

/-- After the `for` loop, the element of record `idx` at an even byte offset `off` holds the
value of its two original bytes read in big-endian order. -/
theorem loadInt16_swapRecord (buf : ByteBuf) (idx off : Nat) (hbuf : ∀ j, buf.byte j < 256)
    (h0 : 12 * idx ≤ off) (h1 : off < 12 * idx + 12) (h2 : (off - 12 * idx) % 2 = 0) :
    loadInt16 (swapRecord buf idx) off = decodeBE buf.byte off := by
  have e0 : (swapRecord buf idx).byte off = buf.byte (off + 1) := by
    rw [swapRecord_eq buf idx hbuf, if_pos (by omega), if_pos (by omega)]
  have e1 : (swapRecord buf idx).byte (off + 1) = buf.byte off := by
    rw [swapRecord_eq buf idx hbuf, if_pos (by omega), if_neg (by omega)]
    rfl
  unfold loadInt16 decodeBE decodeBytes
  rw [e0, e1, shift_or_byte _ _ (hbuf _), Nat.add_comm]

/-- One pass of the `while` loop hands record `idx` to the two consumers. -/
theorem dispatch_record (s : State) (buf : ByteBuf) (idx : Nat) (hbuf : ∀ j, buf.byte j < 256) :
    gyroHandleData (accHandleData s (swapRecord buf idx) (12 * idx + 2 * 0))
        (swapRecord buf idx) (12 * idx + 2 * 3) =
      { s with trace := s.trace ++ recordCalls buf.byte idx } := by
  have a0 : loadInt16 (swapRecord buf idx) (12 * idx + 2 * 0) = decodeBE buf.byte (12 * idx) :=
    loadInt16_swapRecord buf idx _ hbuf (by omega) (by omega) (by omega)
  have a1 : loadInt16 (swapRecord buf idx) (12 * idx + 2 * 0 + 2) =
      decodeBE buf.byte (12 * idx + 2) :=
    loadInt16_swapRecord buf idx _ hbuf (by omega) (by omega) (by omega)
  have a2 : loadInt16 (swapRecord buf idx) (12 * idx + 2 * 0 + 4) =
      decodeBE buf.byte (12 * idx + 4) :=
    loadInt16_swapRecord buf idx _ hbuf (by omega) (by omega) (by omega)
  have g0 : loadInt16 (swapRecord buf idx) (12 * idx + 2 * 3) =
      decodeBE buf.byte (12 * idx + 6) :=
    loadInt16_swapRecord buf idx _ hbuf (by omega) (by omega) (by omega)
  have g1 : loadInt16 (swapRecord buf idx) (12 * idx + 2 * 3 + 2) =
      decodeBE buf.byte (12 * idx + 8) :=
    loadInt16_swapRecord buf idx _ hbuf (by omega) (by omega) (by omega)
  have g2 : loadInt16 (swapRecord buf idx) (12 * idx + 2 * 3 + 4) =
      decodeBE buf.byte (12 * idx + 10) :=
    loadInt16_swapRecord buf idx _ hbuf (by omega) (by omega) (by omega)
  simp only [accHandleData, gyroHandleData, State.emit, recordCalls, a0, a1, a2, g0, g1, g2,
    List.append_assoc, List.singleton_append]

theorem callsFrom_congr (B C : Nat → Nat) : ∀ (n first : Nat),
    (∀ j, 12 * first ≤ j → j < 12 * (first + n) → B j = C j) →
      callsFrom B first n = callsFrom C first n := by
  intro n
  induction n with
  | zero => intro first _; rfl
  | succ n ih =>
    intro first h
    have hrec : recordCalls B first = recordCalls C first := by
      have h0 : B (12 * first) = C (12 * first) := h _ (by omega) (by omega)
      have h1 : B (12 * first + 1) = C (12 * first + 1) := h _ (by omega) (by omega)
      have h2 : B (12 * first + 2) = C (12 * first + 2) := h _ (by omega) (by omega)
      have h3 : B (12 * first + 2 + 1) = C (12 * first + 2 + 1) := h _ (by omega) (by omega)
      have h4 : B (12 * first + 4) = C (12 * first + 4) := h _ (by omega) (by omega)
      have h5 : B (12 * first + 4 + 1) = C (12 * first + 4 + 1) := h _ (by omega) (by omega)
      have h6 : B (12 * first + 6) = C (12 * first + 6) := h _ (by omega) (by omega)
      have h7 : B (12 * first + 6 + 1) = C (12 * first + 6 + 1) := h _ (by omega) (by omega)
      have h8 : B (12 * first + 8) = C (12 * first + 8) := h _ (by omega) (by omega)
      have h9 : B (12 * first + 8 + 1) = C (12 * first + 8 + 1) := h _ (by omega) (by omega)
      have h10 : B (12 * first + 10) = C (12 * first + 10) := h _ (by omega) (by omega)
      have h11 : B (12 * first + 10 + 1) = C (12 * first + 10 + 1) := h _ (by omega) (by omega)
      simp only [recordCalls, decodeBE, h0, h1, h2, h3, h4, h5, h6, h7, h8, h9, h10, h11]
    simp only [callsFrom]
    rw [hrec, ih (first + 1) (fun j h1 h2 => h j (by omega) (by omega))]

/-- The `while` loop of `mpu6050GyroAccFetch` on `12 * n + r` bytes (`r < 12`) from record
`idx`: it hands the `n` complete records to the consumers in order; then it returns the
number of records when `r = 0`, and flushes and returns -1 otherwise. -/
theorem fetchLoop_eq (w : World) (r : Nat) (hr : r < 12) :
    ∀ (n idx : Nat) (buf : ByteBuf) (s : State), (∀ j, buf.byte j < 256) → idx + n ≤ 8 →
      fetchLoop w ((12 * n + r : Nat) : Int) idx buf s =
        some (if r = 0 then ((idx + n : Nat) : Int) else -1,
          { s with
            xact := s.xact + (if r = 0 then 0 else 2)
            trace := s.trace ++
              (callsFrom buf.byte idx n ++ (if r = 0 then [] else flushEvents)) }) := by
  intro n
  induction n with
  | zero =>
    intro idx buf s _ _
    rw [fetchLoop]
    by_cases h0 : r = 0
    · subst h0
      simp [callsFrom]
    · have hpos : 0 < r := by omega
      simp [hpos, hr, h0, callsFrom, mpu6050FifoFlush, i2cWrite, flushEvents, MPU6050_ADDRESS,
        MPU_RA_USER_CTRL, MPU_RF_FIFO_RESET, MPU_RF_FIFO_EN]
  | succ n ih =>
    intro idx buf s hbuf hidx
    rw [fetchLoop]
    have hpos : (0 : Int) < ((12 * (n + 1) + r : Nat) : Int) := by omega
    have hlt : ¬ ((12 * (n + 1) + r : Nat) : Int) < 12 := by omega
    have hi8 : ¬ 8 ≤ idx := by omega
    have hlen : ((12 * (n + 1) + r : Nat) : Int) - 12 = ((12 * n + r : Nat) : Int) := by omega
    simp only [if_pos hpos, if_neg hlt, if_neg hi8, hlen]
    rw [dispatch_record s buf idx hbuf,
      ih (idx + 1) (swapRecord buf idx) _ (swapRecord_lt buf idx hbuf) (by omega),
      callsFrom_congr (swapRecord buf idx).byte buf.byte n (idx + 1)
        (fun j h1 _ => swapRecord_outside buf idx hbuf j h1)]
    have hcast : ((idx + 1 + n : Nat) : Int) = ((idx + (n + 1) : Nat) : Int) := by omega
    simp only [callsFrom, hcast, List.append_assoc]

theorem fetchLen_eq (w : World) (n : Nat) :
    min 96 (fifoLenAt w (fifoLastRead w n 96 12)) = (fetchLen w n : Int) ∧ fetchLen w n ≤ 96 := by
  have h := fifoLenAt_range w (fifoLastRead w n 96 12)
  unfold fetchLen
  omega

/-- A call of `mpu6050GyroAccFetch` as a whole. -/
theorem mpu6050GyroAccFetch_eq (w : World) (s : State) :
    mpu6050GyroAccFetch w s =
      some
        (if fetchGotData w s.xact = true then
           (if fetchLen w s.xact % 12 = 0 then ((fetchLen w s.xact / 12 : Nat) : Int) else -1)
         else 0,
         { s with
           xact := fifoLastRead w s.xact 96 12 + 1 + (if fetchLen w s.xact = 0 then 0 else 1) +
             (if fetchGotData w s.xact = true ∧ fetchLen w s.xact % 12 ≠ 0 then 2 else 0)
           trace := s.trace ++ (fifoReadEvents w s.xact 96 12 ++
             (if fetchGotData w s.xact = true then
               consumerCalls (w.byte (fifoLastRead w s.xact 96 12 + 1)) (fetchLen w s.xact / 12) ++
                 (if fetchLen w s.xact % 12 = 0 then [] else flushEvents)
              else [])) }) := by
  have h12 : (0 : Int) < 12 := by norm_num
  have hret := mpu6050FifoRead_ret w s (localBuf w s) 96 12 h12
  have hst := mpu6050FifoRead_state w s (localBuf w s) 96 12 h12
  have hbuf := mpu6050FifoRead_buffer w s (localBuf w s) 96 12 h12
  obtain ⟨hm, hm96⟩ := fetchLen_eq w s.xact
  rw [hm] at hret hst hbuf
  have hlt : ∀ j, (mpu6050FifoRead w s (localBuf w s) 96 12).2.1.byte j < 256 := by
    intro j
    rw [hbuf]
    split_ifs
    · exact Nat.mod_lt _ (by norm_num)
    · exact Nat.mod_lt _ (by norm_num)
  unfold mpu6050GyroAccFetch
  simp only []
  rw [hret, hst]
  by_cases h0 : fetchLen w s.xact = 0
  · have hg : fetchGotData w s.xact = false := by simp [fetchGotData, h0]
    rw [fetchLoop]
    simp [h0, hg]
  · have h0i : ¬ ((fetchLen w s.xact : Nat) : Int) = 0 := by omega
    cases hack : w.ack (fifoLastRead w s.xact 96 12 + 1)
    · have hg : fetchGotData w s.xact = false := by simp [fetchGotData, hack]
      rw [fetchLoop]
      simp [h0, hg]
    · have hg : fetchGotData w s.xact = true := by simp [fetchGotData, hack, h0]
      have hsplit : ((fetchLen w s.xact : Nat) : Int) =
          ((12 * (fetchLen w s.xact / 12) + fetchLen w s.xact % 12 : Nat) : Int) := by omega
      simp only [h0i, if_false, if_true]
      rw [hsplit, fetchLoop_eq w (fetchLen w s.xact % 12) (Nat.mod_lt _ (by norm_num))
        (fetchLen w s.xact / 12) 0 _ _ hlt (by omega)]
      have hcalls : callsFrom (mpu6050FifoRead w s (localBuf w s) 96 12).2.1.byte 0
          (fetchLen w s.xact / 12) =
          consumerCalls (w.byte (fifoLastRead w s.xact 96 12 + 1)) (fetchLen w s.xact / 12) := by
        unfold consumerCalls
        apply callsFrom_congr
        intro j _ hj
        rw [hbuf, if_pos]
        constructor
        · omega
        · omega
      rw [hcalls]
      by_cases hr : fetchLen w s.xact % 12 = 0
      · simp [hg, hr, h0]
      · simp [hg, hr, h0]

theorem writesTo_callsFrom (reg : Nat) (B : Nat → Nat) :
    ∀ (n first : Nat), writesTo reg (callsFrom B first n) = [] := by
  intro n
  induction n with
  | zero => intro first; rfl
  | succ n ih =>
    intro first
    simp only [callsFrom, writesTo_append, ih]
    rfl

theorem writesTo_fifoReadEvents (reg : Nat) (w : World) (n : Nat) (maxLen modulo : Int) :
    writesTo reg (fifoReadEvents w n maxLen modulo) = [] := by
  unfold fifoReadEvents
  simp only [writesTo_append]
  split_ifs <;> rfl

theorem readsOf_lenReads_count (k : Nat) :
    readsOf MPU_RA_FIFO_COUNTH (lenReads k) = List.replicate k 2 := by
  induction k with
  | zero => rfl
  | succ k ih =>
    rw [lenReads, readsOf_append, ih]
    simp [lenReadEvents, readsOf, MPU_RA_FIFO_COUNTH, List.replicate_succ]

/-! ## Counting the consumer calls -/

theorem accCalls_callsFrom (B : Nat → Nat) :
    ∀ (n first : Nat), accCalls (callsFrom B first n) = n := by
  intro n
  induction n with
  | zero => intro first; rfl
  | succ n ih =>
    intro first
    have h := ih (first + 1)
    unfold accCalls at h ⊢
    simp only [callsFrom, List.countP_append, h]
    simp [recordCalls, List.countP_cons, Event.isAcc]
    omega

theorem gyroCalls_callsFrom (B : Nat → Nat) :
    ∀ (n first : Nat), gyroCalls (callsFrom B first n) = n := by
  intro n
  induction n with
  | zero => intro first; rfl
  | succ n ih =>
    intro first
    have h := ih (first + 1)
    unfold gyroCalls at h ⊢
    simp only [callsFrom, List.countP_append, h]
    simp [recordCalls, List.countP_cons, Event.isGyro]
    omega

theorem accCalls_fifoReadEvents (w : World) (n : Nat) (maxLen modulo : Int) :
    accCalls (fifoReadEvents w n maxLen modulo) = 0 := by
  unfold accCalls fifoReadEvents
  simp only [List.countP_append]
  split_ifs <;> simp [lenReadEvents, List.countP_cons, Event.isAcc]

theorem gyroCalls_fifoReadEvents (w : World) (n : Nat) (maxLen modulo : Int) :
    gyroCalls (fifoReadEvents w n maxLen modulo) = 0 := by
  unfold gyroCalls fifoReadEvents
  simp only [List.countP_append]
  split_ifs <;> simp [lenReadEvents, List.countP_cons, Event.isGyro]

theorem readsOf_callsFrom (reg : Nat) (B : Nat → Nat) :
    ∀ (n first : Nat), readsOf reg (callsFrom B first n) = [] := by
  intro n
  induction n with
  | zero => intro first; rfl
  | succ n ih =>
    intro first
    simp only [callsFrom, readsOf_append, ih]
    rfl

/-- The value `mpu6050FifoRead` hands to `mpu6050GyroAccFetch`. -/
theorem fetch_drain_ret (w : World) (s : State) :
    (mpu6050FifoRead w s (localBuf w s) 96 12).1 =
      (if fetchLen w s.xact = 0 then 0
       else if w.ack (fifoLastRead w s.xact 96 12 + 1) = true then (fetchLen w s.xact : Int)
       else -1) := by
  have hret := mpu6050FifoRead_ret w s (localBuf w s) 96 12 (by norm_num)
  obtain ⟨hm, -⟩ := fetchLen_eq w s.xact
  rw [hm] at hret
  rw [hret]
  by_cases h0 : fetchLen w s.xact = 0
  · simp [h0]
  · have h0i : ¬ ((fetchLen w s.xact : Nat) : Int) = 0 := by omega
    simp [h0, h0i]

/-- The state `mpu6050FifoRead` hands to `mpu6050GyroAccFetch`. -/
theorem fetch_drain_state (w : World) (s : State) :
    (mpu6050FifoRead w s (localBuf w s) 96 12).2.2 =
      { s with
        xact := fifoLastRead w s.xact 96 12 + 1 + (if fetchLen w s.xact = 0 then 0 else 1)
        trace := s.trace ++ fifoReadEvents w s.xact 96 12 } := by
  have hst := mpu6050FifoRead_state w s (localBuf w s) 96 12 (by norm_num)
  obtain ⟨hm, -⟩ := fetchLen_eq w s.xact
  rw [hm] at hst
  rw [hst]
  by_cases h0 : fetchLen w s.xact = 0
  · simp [h0]
  · have h0i : ¬ ((fetchLen w s.xact : Nat) : Int) = 0 := by omega
    simp [h0, h0i]

/-! ## Filter selection (C1) -/

/-- C1: for every 16-bit requested cutoff `lpf`, when device detection succeeds
`mpu6050GyroDetect` returns true and leaves in `mpuLowPassFilter` the setting 256HZ_NOLPF2 (0)
if `lpf = 0xFFFF`, otherwise 188HZ (1) if `lpf >= 188`, otherwise 98HZ (2) if `lpf >= 98`,
otherwise 42HZ (3) if `lpf >= 42`, otherwise 20HZ (4) if `lpf >= 20`, otherwise 10HZ (5) if
`lpf >= 10`, otherwise 5HZ (6).  In particular 188, 98, 42, 20, 10 select their own setting,
187, 97, 41, 19, 9 the next lower one, and 5, 4, 0 select 5HZ. -/
theorem mpu6050GyroDetect_selects_filter (w : World) (s : State)
    (configToUse : Option mpu6050Config_t) (gyro : gyro_t) (lpf : Nat) (_hlpf : lpf < 65536)
    (hdet : (mpu6050Detect w { s with mpu6050Config := configToUse }).1 = true) :
    (mpu6050GyroDetect w s configToUse gyro lpf).1 = true ∧
    (mpu6050GyroDetect w s configToUse gyro lpf).2.2.mpuLowPassFilter =
      (if lpf = 0xFFFF then INV_FILTER_256HZ_NOLPF2
       else if 188 ≤ lpf then INV_FILTER_188HZ
       else if 98 ≤ lpf then INV_FILTER_98HZ
       else if 42 ≤ lpf then INV_FILTER_42HZ
       else if 20 ≤ lpf then INV_FILTER_20HZ
       else if 10 ≤ lpf then INV_FILTER_10HZ
       else INV_FILTER_5HZ) ∧
    (List.map (fun l => (mpu6050GyroDetect w s configToUse gyro l).2.2.mpuLowPassFilter)
        [0xFFFF, 188, 98, 42, 20, 10, 187, 97, 41, 19, 9, 5, 4, 0]
      = [0, 1, 2, 3, 4, 5, 2, 3, 4, 5, 6, 6, 6, 6]) := by
  have key : ∀ l : Nat, (mpu6050GyroDetect w s configToUse gyro l).2.2.mpuLowPassFilter =
      (if l = 0xFFFF then INV_FILTER_256HZ_NOLPF2
       else if 188 ≤ l then INV_FILTER_188HZ
       else if 98 ≤ l then INV_FILTER_98HZ
       else if 42 ≤ l then INV_FILTER_42HZ
       else if 20 ≤ l then INV_FILTER_20HZ
       else if 10 ≤ l then INV_FILTER_10HZ
       else INV_FILTER_5HZ) := by
    intro l
    simp only [mpu6050GyroDetect, hdet, Bool.not_true, Bool.false_eq_true, if_false, ge_iff_le]
    split_ifs <;> rfl
  refine ⟨?_, key lpf, ?_⟩
  · simp [mpu6050GyroDetect, hdet]
  · simp only [List.map, key]
    decide

/-- C1 instantiated: on an acknowledging bus that identifies as `0x68`, a requested cutoff of
187 Hz selects the 98 Hz setting. -/
theorem mpu6050GyroDetect_selects_filter_witness :
    187 < 65536 ∧
    (mpu6050Detect worldPresent { State.initial 0 with mpu6050Config := none }).1 = true ∧
    (mpu6050GyroDetect worldPresent (State.initial 0) none gyroBlank 187).1 = true ∧
    (mpu6050GyroDetect worldPresent (State.initial 0) none gyroBlank 187).2.2.mpuLowPassFilter
      = INV_FILTER_98HZ :=
  have h := mpu6050GyroDetect_selects_filter worldPresent (State.initial 0) none gyroBlank 187
    (by decide) (by decide)
  ⟨by decide, by decide, h.1, h.2.1⟩

/-! ## Identification (C6) -/

/-- C6: `mpu6050Detect` issues one 1-byte read of WHO_AM_I and returns true if and only if that
read is acknowledged and the byte read equals `0x68`, which is the device address masked with
`0x7E`; `mpu6050GyroDetect` returns true exactly in that case, and `mpu6050AccDetect` returns
false (not-present) exactly when the read fails or the identity byte differs from `0x68`. -/
theorem mpu6050Detect_iff_ack_and_signature (w : World) (s : State)
    (configToUse : Option mpu6050Config_t) (acc : acc_t) (gyro : gyro_t) (lpf : Nat) :
    MPU6050_ADDRESS &&& 0x7e = 0x68 ∧
    (mpu6050Detect w s).2.trace =
      s.trace ++ [Event.delay 35, Event.i2cRead MPU6050_ADDRESS MPU_RA_WHO_AM_I 1] ∧
    ((mpu6050Detect w s).1 = true ↔ (w.ack s.xact = true ∧ w.byte s.xact 0 = 0x68)) ∧
    ((mpu6050GyroDetect w s configToUse gyro lpf).1 = true ↔
      (w.ack s.xact = true ∧ w.byte s.xact 0 = 0x68)) ∧
    ((mpu6050AccDetect w s configToUse acc).1 = some false ↔
      ¬ (w.ack s.xact = true ∧ w.byte s.xact 0 = 0x68)) := by
  have hd : ∀ t : State, ((mpu6050Detect w t).1 = true ↔
      (w.ack t.xact = true ∧ w.byte t.xact 0 = 0x68)) := by
    intro t
    have hm : (104 &&& 126 : Nat) = 104 := by decide
    simp only [mpu6050Detect, i2cRead, delay, State.emit, World.byte, MPU6050_ADDRESS, hm]
    cases hack : w.ack t.xact <;> simp
    split_ifs with h <;> simp_all
  refine ⟨by decide, ?_, hd s, ?_, ?_⟩
  · simp only [mpu6050Detect, i2cRead, delay, State.emit]
    split_ifs <;> simp
  · have h := hd { s with mpu6050Config := configToUse }
    simp only [mpu6050GyroDetect]
    cases hc : (mpu6050Detect w { s with mpu6050Config := configToUse }).1
    · simpa [hc] using h
    · simpa [hc] using h
  · have h := hd { s with mpu6050Config := configToUse }
    simp only [mpu6050AccDetect]
    cases hc : (mpu6050Detect w { s with mpu6050Config := configToUse }).1
    · simpa [hc] using h
    · rw [hc] at h
      have h2 := h.mp rfl
      simp only [Bool.not_true, Bool.false_eq_true, if_false]
      split_ifs <;> simp [h2]

/-! ## Direct sample reads (C10) -/

/-- C10: on a successful 6-byte burst read returning bytes `b[0..5]`, `mpu6050AccRead` (one read
of 6 bytes from ACCEL_XOUT_H) and `mpu6050GyroRead` (one read of 6 bytes from GYRO_XOUT_H) each
store, for `i = 0, 1, 2`, `out[i] =` the `int16_t` conversion of `(b[2i] << 8) | b[2i+1]`, which
is `256 * b[2i] + b[2i+1]` when that is below 32768 and that value minus 65536 otherwise. -/
theorem mpu6050AccRead_GyroRead_big_endian (w : World) (s : State) (accData gyroData : Nat → Int)
    (i : Nat) (hi : i < 3) (hack : w.ack s.xact = true) :
    (mpu6050AccRead w s accData).2.trace =
      s.trace ++ [Event.i2cRead MPU6050_ADDRESS MPU_RA_ACCEL_XOUT_H 6] ∧
    (mpu6050AccRead w s accData).1 i =
      toInt16 (((w.byte s.xact (2 * i) <<< 8) ||| w.byte s.xact (2 * i + 1) : Nat) : Int) ∧
    (mpu6050AccRead w s accData).1 i = signed16 (w.byte s.xact (2 * i)) (w.byte s.xact (2 * i + 1)) ∧
    (mpu6050GyroRead w s gyroData).2.trace =
      s.trace ++ [Event.i2cRead MPU6050_ADDRESS MPU_RA_GYRO_XOUT_H 6] ∧
    (mpu6050GyroRead w s gyroData).1 i =
      toInt16 (((w.byte s.xact (2 * i) <<< 8) ||| w.byte s.xact (2 * i + 1) : Nat) : Int) ∧
    (mpu6050GyroRead w s gyroData).1 i =
      signed16 (w.byte s.xact (2 * i)) (w.byte s.xact (2 * i + 1)) := by
  have hb : ∀ j, w.byte s.xact j < 256 := fun j => Nat.mod_lt _ (by norm_num)
  have hs := toInt16_bytes (w.byte s.xact (2 * i)) (w.byte s.xact (2 * i + 1)) (hb _) (hb _)
  have ha : (mpu6050AccRead w s accData).1 i =
      toInt16 (((w.byte s.xact (2 * i) <<< 8) ||| w.byte s.xact (2 * i + 1) : Nat) : Int) := by
    interval_cases i <;>
      simp [mpu6050AccRead, i2cRead, hack, Function.update, World.byte]
  have hg : (mpu6050GyroRead w s gyroData).1 i =
      toInt16 (((w.byte s.xact (2 * i) <<< 8) ||| w.byte s.xact (2 * i + 1) : Nat) : Int) := by
    interval_cases i <;>
      simp [mpu6050GyroRead, i2cRead, hack, Function.update, World.byte]
  refine ⟨?_, ha, ha.trans hs, ?_, hg, hg.trans hs⟩
  · simp [mpu6050AccRead, i2cRead, hack]
  · simp [mpu6050GyroRead, i2cRead, hack]

/-- C10 instantiated: the bytes `0x68 0x68` are read as `0x6868 = 26728` into element 1. -/
theorem mpu6050AccRead_GyroRead_big_endian_witness :
    1 < 3 ∧ worldPresent.ack (State.initial 0).xact = true ∧
    (mpu6050AccRead worldPresent (State.initial 0) outBlank).1 1 = 26728 ∧
    (mpu6050GyroRead worldPresent (State.initial 0) outBlank).1 1 = 26728 :=
  have h := mpu6050AccRead_GyroRead_big_endian worldPresent (State.initial 0) outBlank outBlank 1
    (by decide) rfl
  ⟨by decide, rfl, h.2.2.1.trans (by decide), h.2.2.2.2.2.trans (by decide)⟩

/-! ## Sample-rate divider (C9) -/

/-- C9: for every requested cutoff `lpf`, after a successful `mpu6050GyroDetect(lpf)` followed
by `mpu6050GyroInit`, exactly one byte is written to SMPLRT_DIV and it is 7 if `lpf` is the
disable sentinel `0xFFFF` and 0 in every other case; exactly one byte is written to CONFIG and
it is the filter setting selected for `lpf`, which is 256HZ_NOLPF2 if and only if
`lpf = 0xFFFF`; for `lpf = 50` that setting is 42HZ (3). -/
theorem gyroDetect_gyroInit_divider (bc : BuildConfig) (w : World) (s : State)
    (configToUse : Option mpu6050Config_t) (gyro : gyro_t) (lpf : Nat) (_hlpf : lpf < 65536)
    (hdet : (mpu6050Detect w { s with mpu6050Config := configToUse }).1 = true) :
    (mpu6050GyroDetect w s configToUse gyro lpf).1 = true ∧
    writesTo MPU_RA_SMPLRT_DIV
        (State.since (mpu6050GyroDetect w s configToUse gyro lpf).2.2
          (mpu6050GyroInit bc w (mpu6050GyroDetect w s configToUse gyro lpf).2.2))
      = [if lpf = 0xFFFF then 7 else 0] ∧
    writesTo MPU_RA_CONFIG
        (State.since (mpu6050GyroDetect w s configToUse gyro lpf).2.2
          (mpu6050GyroInit bc w (mpu6050GyroDetect w s configToUse gyro lpf).2.2))
      = [(mpu6050GyroDetect w s configToUse gyro lpf).2.2.mpuLowPassFilter] ∧
    ((mpu6050GyroDetect w s configToUse gyro lpf).2.2.mpuLowPassFilter = INV_FILTER_256HZ_NOLPF2
      ↔ lpf = 0xFFFF) ∧
    (lpf = 50 →
      (mpu6050GyroDetect w s configToUse gyro lpf).2.2.mpuLowPassFilter = INV_FILTER_42HZ) := by
  have hsel : (mpu6050GyroDetect w s configToUse gyro lpf).2.2.mpuLowPassFilter =
      (if lpf = 0xFFFF then INV_FILTER_256HZ_NOLPF2
       else if 188 ≤ lpf then INV_FILTER_188HZ
       else if 98 ≤ lpf then INV_FILTER_98HZ
       else if 42 ≤ lpf then INV_FILTER_42HZ
       else if 20 ≤ lpf then INV_FILTER_20HZ
       else if 10 ≤ lpf then INV_FILTER_10HZ
       else INV_FILTER_5HZ) := by
    simp only [mpu6050GyroDetect, hdet, Bool.not_true, Bool.false_eq_true, if_false, ge_iff_le]
    split_ifs <;> rfl
  have hzero : ((mpu6050GyroDetect w s configToUse gyro lpf).2.2.mpuLowPassFilter = 0
      ↔ lpf = 0xFFFF) := by
    rw [hsel]
    simp only [INV_FILTER_256HZ_NOLPF2, INV_FILTER_188HZ, INV_FILTER_98HZ, INV_FILTER_42HZ,
      INV_FILTER_20HZ, INV_FILTER_10HZ, INV_FILTER_5HZ]
    split_ifs <;> simp_all
  have hsince := State.since_append _ _ _
    (mpu6050GyroInit_trace bc w (mpu6050GyroDetect w s configToUse gyro lpf).2.2)
  refine ⟨by simp [mpu6050GyroDetect, hdet], ?_, ?_, hzero, ?_⟩
  · rw [hsince]
    simp only [writesTo_append, writesTo_gpioInitEvents, hzero]
    cases bc.ACCGYRO_FIFO <;> cases bc.USE_MPU_DATA_READY_SIGNAL <;>
      simp [writesTo, fifoEnableEvents, MPU_RA_SMPLRT_DIV]
  · rw [hsince]
    simp only [writesTo_append, writesTo_gpioInitEvents]
    cases bc.ACCGYRO_FIFO <;> cases bc.USE_MPU_DATA_READY_SIGNAL <;>
      simp [writesTo, fifoEnableEvents, MPU_RA_CONFIG]
  · intro h50
    rw [hsel, h50]
    decide

/-- C9 instantiated: a requested cutoff of 50 Hz writes SMPLRT_DIV = 0 and CONFIG = 3. -/
theorem gyroDetect_gyroInit_divider_witness :
    50 < 65536 ∧
    (mpu6050Detect worldPresent { State.initial 0 with mpu6050Config := none }).1 = true ∧
    writesTo MPU_RA_SMPLRT_DIV
        (State.since (mpu6050GyroDetect worldPresent (State.initial 0) none gyroBlank 50).2.2
          (mpu6050GyroInit ⟨false, false⟩ worldPresent
            (mpu6050GyroDetect worldPresent (State.initial 0) none gyroBlank 50).2.2))
      = [0] ∧
    writesTo MPU_RA_CONFIG
        (State.since (mpu6050GyroDetect worldPresent (State.initial 0) none gyroBlank 50).2.2
          (mpu6050GyroInit ⟨false, false⟩ worldPresent
            (mpu6050GyroDetect worldPresent (State.initial 0) none gyroBlank 50).2.2))
      = [3] :=
  have h := gyroDetect_gyroInit_divider ⟨false, false⟩ worldPresent (State.initial 0) none
    gyroBlank 50 (by decide) (by decide)
  ⟨by decide, by decide, h.2.1, h.2.2.1.trans (by rw [h.2.2.2.2 rfl]; rfl)⟩

/-! ## Revision detection (C7, C8) -/

/-- C7: after a successful identification `mpu6050AccDetect` reads the 6-byte self-test block
and, with `code = ((b[5] & 1) << 2) | ((b[3] & 1) << 1) | (b[1] & 1)`: if `code = 1` the variant
is HALF and the subsequent `mpu6050AccInit` sets `acc_1G` to 2048; if `code = 2` the variant is
FULL and `acc_1G` becomes 4096; if `code` is any of 3..7 the last thing the driver does is to
raise `failureMode(5)`, the variant is not assigned (it keeps the value it had), and when the
fault is terminal the function does not return and installs no callbacks. -/
theorem mpu6050AccDetect_selfTest_code (bc : BuildConfig) (w : World) (s : State)
    (configToUse : Option mpu6050Config_t) (acc : acc_t)
    (hdet : (mpu6050Detect w { s with mpu6050Config := configToUse }).1 = true) :
    selfTestCode w (s.xact + 1) ≤ 7 ∧
    (selfTestCode w (s.xact + 1) = 1 →
      (mpu6050AccDetect w s configToUse acc).1 = some true ∧
      (mpu6050AccDetect w s configToUse acc).2.2.trace =
        s.trace ++ [Event.delay 35, Event.i2cRead MPU6050_ADDRESS MPU_RA_WHO_AM_I 1,
          Event.i2cRead MPU6050_ADDRESS MPU_RA_XA_OFFS_H 6] ∧
      (mpu6050AccDetect w s configToUse acc).2.2.mpuAccelTrim = MPU_6050_HALF_RESOLUTION ∧
      (mpu6050AccInit bc (mpu6050AccDetect w s configToUse acc).2.2).acc_1G = 2048) ∧
    (selfTestCode w (s.xact + 1) = 2 →
      (mpu6050AccDetect w s configToUse acc).1 = some true ∧
      (mpu6050AccDetect w s configToUse acc).2.2.trace =
        s.trace ++ [Event.delay 35, Event.i2cRead MPU6050_ADDRESS MPU_RA_WHO_AM_I 1,
          Event.i2cRead MPU6050_ADDRESS MPU_RA_XA_OFFS_H 6] ∧
      (mpu6050AccDetect w s configToUse acc).2.2.mpuAccelTrim = MPU_6050_FULL_RESOLUTION ∧
      (mpu6050AccInit bc (mpu6050AccDetect w s configToUse acc).2.2).acc_1G = 4096) ∧
    (3 ≤ selfTestCode w (s.xact + 1) →
      (mpu6050AccDetect w s configToUse acc).2.2.trace =
        s.trace ++ [Event.delay 35, Event.i2cRead MPU6050_ADDRESS MPU_RA_WHO_AM_I 1,
          Event.i2cRead MPU6050_ADDRESS MPU_RA_XA_OFFS_H 6, Event.failureMode 5] ∧
      (mpu6050AccDetect w s configToUse acc).2.2.mpuAccelTrim = s.mpuAccelTrim ∧
      (w.failureModeReturns = false →
        (mpu6050AccDetect w s configToUse acc).1 = none ∧
        (mpu6050AccDetect w s configToUse acc).2.1 = acc)) := by
  obtain ⟨x, y, z, hx, hy, hz, h5, h3, h1, hcode⟩ := selfTestCode_cases w (s.xact + 1)
  rw [hcode]
  have hfm : w.failureModeReturns = true ∨ w.failureModeReturns = false := by
    cases w.failureModeReturns <;> simp
  refine ⟨by omega, ?_, ?_, ?_⟩
  all_goals
    intro hc
    try simp only [mpu6050AccInit_acc_1G]
    simp only [mpu6050AccDetect, hdet, mpu6050Detect_state, i2cRead, failureMode, State.emit,
      Nat.and_one_is_mod]
    interval_cases x <;> interval_cases y <;> interval_cases z <;> simp at hc <;>
      rcases hfm with hf | hf <;> simp [h5, h3, h1, hf]

/-- C7 instantiated: a self-test block with only bit 0 of byte 1 set gives code 1, the HALF
variant and `acc_1G = 2048`. -/
theorem mpu6050AccDetect_selfTest_code_witness :
    (mpu6050Detect (worldSelfTest 1 0 0) { State.initial 0 with mpu6050Config := none }).1 = true ∧
    selfTestCode (worldSelfTest 1 0 0) ((State.initial 0).xact + 1) = 1 ∧
    (mpu6050AccDetect (worldSelfTest 1 0 0) (State.initial 0) none accBlank).2.2.mpuAccelTrim
      = MPU_6050_HALF_RESOLUTION ∧
    (mpu6050AccInit ⟨false, false⟩
      (mpu6050AccDetect (worldSelfTest 1 0 0) (State.initial 0) none accBlank).2.2).acc_1G = 2048 :=
  have h := (mpu6050AccDetect_selfTest_code ⟨false, false⟩ (worldSelfTest 1 0 0)
    (State.initial 0) none accBlank (by decide)).2.1 (by decide)
  ⟨by decide, by decide, h.2.2.1, h.2.2.2⟩

/-- C8: after a successful identification, when the self-test code is 0 `mpu6050AccDetect`
reads the 1-byte product-id register and, with `n = p & 0x0F` for the byte `p` read: `n = 0`
raises `failureMode(5)` as the last thing the driver does and assigns no variant; `n = 4`
selects HALF; every other `n` (1..3, 5..15) selects FULL.  When the self-test code is non-zero
the product-id register is not read at all. -/
theorem mpu6050AccDetect_product_id (w : World) (s : State)
    (configToUse : Option mpu6050Config_t) (acc : acc_t)
    (hdet : (mpu6050Detect w { s with mpu6050Config := configToUse }).1 = true) :
    productNibble w (s.xact + 2) ≤ 15 ∧
    (selfTestCode w (s.xact + 1) = 0 → productNibble w (s.xact + 2) = 0 →
      (mpu6050AccDetect w s configToUse acc).2.2.trace =
        s.trace ++ [Event.delay 35, Event.i2cRead MPU6050_ADDRESS MPU_RA_WHO_AM_I 1,
          Event.i2cRead MPU6050_ADDRESS MPU_RA_XA_OFFS_H 6,
          Event.i2cRead MPU6050_ADDRESS MPU_RA_PRODUCT_ID 1, Event.failureMode 5] ∧
      (mpu6050AccDetect w s configToUse acc).2.2.mpuAccelTrim = s.mpuAccelTrim ∧
      (w.failureModeReturns = false →
        (mpu6050AccDetect w s configToUse acc).1 = none ∧
        (mpu6050AccDetect w s configToUse acc).2.1 = acc)) ∧
    (selfTestCode w (s.xact + 1) = 0 → productNibble w (s.xact + 2) = 4 →
      (mpu6050AccDetect w s configToUse acc).1 = some true ∧
      (mpu6050AccDetect w s configToUse acc).2.2.trace =
        s.trace ++ [Event.delay 35, Event.i2cRead MPU6050_ADDRESS MPU_RA_WHO_AM_I 1,
          Event.i2cRead MPU6050_ADDRESS MPU_RA_XA_OFFS_H 6,
          Event.i2cRead MPU6050_ADDRESS MPU_RA_PRODUCT_ID 1] ∧
      (mpu6050AccDetect w s configToUse acc).2.2.mpuAccelTrim = MPU_6050_HALF_RESOLUTION) ∧
    (selfTestCode w (s.xact + 1) = 0 → productNibble w (s.xact + 2) ≠ 0 →
        productNibble w (s.xact + 2) ≠ 4 →
      (mpu6050AccDetect w s configToUse acc).1 = some true ∧
      (mpu6050AccDetect w s configToUse acc).2.2.trace =
        s.trace ++ [Event.delay 35, Event.i2cRead MPU6050_ADDRESS MPU_RA_WHO_AM_I 1,
          Event.i2cRead MPU6050_ADDRESS MPU_RA_XA_OFFS_H 6,
          Event.i2cRead MPU6050_ADDRESS MPU_RA_PRODUCT_ID 1] ∧
      (mpu6050AccDetect w s configToUse acc).2.2.mpuAccelTrim = MPU_6050_FULL_RESOLUTION) ∧
    (selfTestCode w (s.xact + 1) ≠ 0 →
      readsOf MPU_RA_PRODUCT_ID
        (State.since s (mpu6050AccDetect w s configToUse acc).2.2) = []) := by
  obtain ⟨x, y, z, hx, hy, hz, h5, h3, h1, hcode⟩ := selfTestCode_cases w (s.xact + 1)
  rw [hcode]
  have hfm : w.failureModeReturns = true ∨ w.failureModeReturns = false := by
    cases w.failureModeReturns <;> simp
  have hle : productNibble w (s.xact + 2) ≤ 15 := by
    unfold productNibble
    exact Nat.and_le_right
  refine ⟨hle, ?_, ?_, ?_, ?_⟩
  · intro hc hn
    simp only [productNibble, World.byte] at hn
    simp only [mpu6050AccDetect, hdet, mpu6050Detect_state, i2cRead, failureMode, State.emit,
      Nat.and_one_is_mod]
    obtain ⟨rfl, rfl, rfl⟩ : x = 0 ∧ y = 0 ∧ z = 0 := by omega
    rcases hfm with hf | hf <;> simp [h5, h3, h1, hf, hn, Nat.add_assoc]
  · intro hc hn
    simp only [productNibble, World.byte] at hn
    simp only [mpu6050AccDetect, hdet, mpu6050Detect_state, i2cRead, failureMode, State.emit,
      Nat.and_one_is_mod]
    obtain ⟨rfl, rfl, rfl⟩ : x = 0 ∧ y = 0 ∧ z = 0 := by omega
    simp [h5, h3, h1, hn, Nat.add_assoc]
  · intro hc hn0 hn4
    simp only [productNibble, World.byte] at hn0 hn4
    simp only [mpu6050AccDetect, hdet, mpu6050Detect_state, i2cRead, failureMode, State.emit,
      Nat.and_one_is_mod]
    obtain ⟨rfl, rfl, rfl⟩ : x = 0 ∧ y = 0 ∧ z = 0 := by omega
    simp [h5, h3, h1, hn0, hn4, Nat.add_assoc]
  · intro hc
    simp only [State.since, mpu6050AccDetect, hdet, mpu6050Detect_state, i2cRead, failureMode,
      State.emit, Nat.and_one_is_mod]
    interval_cases x <;> interval_cases y <;> interval_cases z <;> simp at hc <;>
      rcases hfm with hf | hf <;>
      simp [h5, h3, h1, hf, readsOf, MPU_RA_PRODUCT_ID, MPU_RA_WHO_AM_I, MPU_RA_XA_OFFS_H]

/-- C8 instantiated: with a zero self-test block, product id `0x14` (nibble 4) selects HALF. -/
theorem mpu6050AccDetect_product_id_witness :
    (mpu6050Detect (worldProduct 0x14) { State.initial 0 with mpu6050Config := none }).1 = true ∧
    selfTestCode (worldProduct 0x14) ((State.initial 0).xact + 1) = 0 ∧
    productNibble (worldProduct 0x14) ((State.initial 0).xact + 2) = 4 ∧
    (mpu6050AccDetect (worldProduct 0x14) (State.initial 0) none accBlank).1 = some true ∧
    (mpu6050AccDetect (worldProduct 0x14) (State.initial 0) none accBlank).2.2.mpuAccelTrim
      = MPU_6050_HALF_RESOLUTION :=
  have h := (mpu6050AccDetect_product_id (worldProduct 0x14) (State.initial 0) none accBlank
    (by decide)).2.2.1 (by decide) (by decide)
  ⟨by decide, by decide, by decide, h.1, h.2.2⟩

/-! ## The FIFO drain (C4, C5) -/

/-- C4: for every `maxLen >= 0`, every `recordSize > 0` and every behaviour of the bus, the call
`mpu6050FifoRead(buffer, maxLen, recordSize)` reads the queue length once or twice (`k + 1`
times), every reported length lying in 0..65535, and then, with `R` the last length read: the
value returned is never greater than `maxLen`; when it is not -1 it equals `min(maxLen, R)`, and
the reads of the FIFO data register made by the call are none when that value is 0 and otherwise
exactly one, requesting that many bytes. -/
theorem mpu6050FifoRead_le_maxLen (w : World) (s : State) (buffer : ByteBuf)
    (maxLen recordSize : Int) (hmax : 0 ≤ maxLen) (hrec : 0 < recordSize) :
    ∃ (k : Nat) (rest : List Event), k ≤ 1 ∧
      State.since s (mpu6050FifoRead w s buffer maxLen recordSize).2.2 = lenReads (k + 1) ++ rest ∧
      readsOf MPU_RA_FIFO_COUNTH rest = [] ∧
      (0 ≤ fifoLenAt w (s.xact + k) ∧ fifoLenAt w (s.xact + k) ≤ 65535) ∧
      (mpu6050FifoRead w s buffer maxLen recordSize).1 ≤ maxLen ∧
      ((mpu6050FifoRead w s buffer maxLen recordSize).1 ≠ -1 →
        (mpu6050FifoRead w s buffer maxLen recordSize).1 = min maxLen (fifoLenAt w (s.xact + k)) ∧
        readsOf MPU_RA_FIFO_R_W
            (State.since s (mpu6050FifoRead w s buffer maxLen recordSize).2.2) =
          (if (mpu6050FifoRead w s buffer maxLen recordSize).1 = 0 then []
           else [(mpu6050FifoRead w s buffer maxLen recordSize).1])) := by
  obtain ⟨k, hk, -, hret, hsince⟩ := mpu6050FifoRead_run w s buffer maxLen recordSize hrec
  have hR := fifoLenAt_range w (s.xact + k)
  refine ⟨k, _, hk, hsince, ?_, hR, ?_, ?_⟩
  · split_ifs <;> simp [readsOf, MPU_RA_FIFO_COUNTH]
  · rw [hret]
    split_ifs <;> omega
  · intro hne
    rw [hsince, hret] at *
    simp only [readsOf_append, readsOf_lenReads_data, List.nil_append]
    by_cases h0 : min maxLen (fifoLenAt w (s.xact + k)) = 0
    · simp only [h0, if_true]
      split_ifs <;> simp [readsOf]
    · cases hack : w.ack (s.xact + k + 1)
      · simp [h0, hack] at hne
      · simp only [h0, if_false, if_true]
        split_ifs <;> simp [readsOf, MPU_RA_FIFO_R_W]

/-- C4 instantiated: a reported length of `0x6868 = 26728` bytes, drained into a 96-byte
buffer with 12-byte records, returns 96. -/
theorem mpu6050FifoRead_le_maxLen_witness :
    (0 : Int) ≤ 96 ∧ (0 : Int) < 12 ∧
    (mpu6050FifoRead worldPresent (State.initial 0) ⟨fun _ => 0⟩ 96 12).1 ≤ 96 :=
  have h := mpu6050FifoRead_le_maxLen worldPresent (State.initial 0) ⟨fun _ => 0⟩ 96 12
    (by decide) (by decide)
  ⟨by decide, by decide, h.choose_spec.choose_spec.2.2.2.2.1⟩

/-- C5: for `maxLen >= 0` and `recordSize > 0`, with `R` the last queue length read by
`mpu6050FifoRead` (after `k + 1` length reads, which are the transactions `s.xact .. s.xact + k`
of the bus): the call returns 0 if and only if the clamped length `min(maxLen, R)` is 0, and
then it reads the FIFO data register not at all; otherwise it reads it exactly once, as the
next transaction, requesting the clamped length; it returns -1 if and only if the clamped
length is non-zero and that burst read fails; it never issues more than one burst read. -/
theorem mpu6050FifoRead_zero_vs_fault (w : World) (s : State) (buffer : ByteBuf)
    (maxLen recordSize : Int) (hmax : 0 ≤ maxLen) (hrec : 0 < recordSize) :
    ∃ (k : Nat) (dbg : List Event), k ≤ 1 ∧
      (dbg = [] ∨ dbg = [Event.pinDbgToggle DbgPin.DBP_MPU6050_2]) ∧
      State.since s (mpu6050FifoRead w s buffer maxLen recordSize).2.2 =
        lenReads (k + 1) ++ dbg ++
          (if min maxLen (fifoLenAt w (s.xact + k)) = 0 then []
           else [Event.i2cRead MPU6050_ADDRESS MPU_RA_FIFO_R_W
             (min maxLen (fifoLenAt w (s.xact + k)))]) ∧
      ((mpu6050FifoRead w s buffer maxLen recordSize).1 = 0 ↔
        min maxLen (fifoLenAt w (s.xact + k)) = 0) ∧
      (min maxLen (fifoLenAt w (s.xact + k)) = 0 →
        readsOf MPU_RA_FIFO_R_W
          (State.since s (mpu6050FifoRead w s buffer maxLen recordSize).2.2) = []) ∧
      ((mpu6050FifoRead w s buffer maxLen recordSize).1 = -1 ↔
        (min maxLen (fifoLenAt w (s.xact + k)) ≠ 0 ∧ w.ack (s.xact + k + 1) = false)) ∧
      (readsOf MPU_RA_FIFO_R_W
        (State.since s (mpu6050FifoRead w s buffer maxLen recordSize).2.2)).length ≤ 1 := by
  obtain ⟨k, hk, -, hret, hsince⟩ := mpu6050FifoRead_run w s buffer maxLen recordSize hrec
  have hR := fifoLenAt_range w (s.xact + k)
  have hm : 0 ≤ min maxLen (fifoLenAt w (s.xact + k)) := le_min hmax hR.1
  have hreads : readsOf MPU_RA_FIFO_R_W
      (State.since s (mpu6050FifoRead w s buffer maxLen recordSize).2.2) =
        (if min maxLen (fifoLenAt w (s.xact + k)) = 0 then []
         else [min maxLen (fifoLenAt w (s.xact + k))]) := by
    rw [hsince]
    simp only [readsOf_append, readsOf_lenReads_data, List.nil_append]
    split_ifs <;> simp [readsOf, MPU_RA_FIFO_R_W]
  refine ⟨k, (if 12 < min maxLen (fifoLenAt w (s.xact + k)) ∧
        min maxLen (fifoLenAt w (s.xact + k)) ≤ 36
      then [Event.pinDbgToggle DbgPin.DBP_MPU6050_2] else []), hk, ?_, ?_, ?_, ?_, ?_, ?_⟩
  · split_ifs <;> simp
  · rw [hsince]
    simp [MPU6050_ADDRESS, MPU_RA_FIFO_R_W]
  · rw [hret]
    by_cases h0 : min maxLen (fifoLenAt w (s.xact + k)) = 0
    · simp [h0]
    · cases hack : w.ack (s.xact + k + 1) <;> simp [h0]
  · intro h0
    rw [hreads, if_pos h0]
  · rw [hret]
    by_cases h0 : min maxLen (fifoLenAt w (s.xact + k)) = 0
    · simp [h0]
    · cases hack : w.ack (s.xact + k + 1)
      · simp [h0]
      · simp only [h0, if_false, if_true, ne_eq, not_false_eq_true, true_and, Bool.true_eq_false,
          iff_false]
        omega
  · rw [hreads]
    split_ifs <;> simp

/-- C5 instantiated: an empty queue gives 0 and no read of the FIFO data register. -/
theorem mpu6050FifoRead_zero_vs_fault_witness :
    (0 : Int) ≤ 96 ∧ (0 : Int) < 12 ∧
    ∃ (k : Nat), k ≤ 1 ∧
      ((mpu6050FifoRead (worldFifo 0 0 0) (State.initial 0) ⟨fun _ => 0⟩ 96 12).1 = 0 ↔
        min 96 (fifoLenAt (worldFifo 0 0 0) ((State.initial 0).xact + k)) = 0) :=
  have h := mpu6050FifoRead_zero_vs_fault (worldFifo 0 0 0) (State.initial 0) ⟨fun _ => 0⟩ 96 12
    (by decide) (by decide)
  ⟨by decide, by decide, h.choose, h.choose_spec.choose_spec.1,
    h.choose_spec.choose_spec.2.2.2.1⟩

/-! ## Deframing (C2, C3) -/

/-- C2: for every `L` that is a positive multiple of 12 with `L <= 96`, if the FIFO length
register reports `L` and the burst read succeeds, returning the bytes `B`, then
`mpu6050GyroAccFetch` returns exactly `L / 12`; what it does is, in order: one length read, the
burst read of `L` bytes, and for `k = 0 .. L/12 - 1` in increasing order `accHandleData` on the
values of `B` at byte offsets `12k + 0, 2, 4` followed by `gyroHandleData` on those at
`12k + 6, 8, 10`, each value being the `int16_t` conversion of `(B[j] << 8) | B[j+1]`; nothing
is written to USER_CTRL (no flush).  The bytes `0x80 0x00` decode to -32768 and `0xFF 0xFF`
to -1. -/
theorem mpu6050GyroAccFetch_whole_records (w : World) (s : State) (L : Nat)
    (hpos : 0 < L) (hmul : L % 12 = 0) (hle : L ≤ 96)
    (hlen : fifoLenAt w s.xact = (L : Int)) (hack : w.ack (s.xact + 1) = true) :
    ∃ s1 : State,
      mpu6050GyroAccFetch w s = some (((L / 12 : Nat) : Int), s1) ∧
      State.since s s1 =
        lenReads 1 ++
          (if 12 < L ∧ L ≤ 36 then [Event.pinDbgToggle DbgPin.DBP_MPU6050_2] else []) ++
          [Event.i2cRead MPU6050_ADDRESS MPU_RA_FIFO_R_W (L : Int)] ++
          consumerCalls (w.byte (s.xact + 1)) (L / 12) ∧
      writesTo MPU_RA_USER_CTRL (State.since s s1) = [] ∧
      decodeBytes 0x80 0x00 = -32768 ∧ decodeBytes 0xFF 0xFF = -1 := by
  have hretry : fifoRetry w s.xact 96 12 = false := by
    apply decide_eq_false
    rw [hlen]
    omega
  have hlast : fifoLastRead w s.xact 96 12 = s.xact := by simp [fifoLastRead, hretry]
  have hfl : fetchLen w s.xact = L := by
    unfold fetchLen
    rw [hlast, hlen]
    omega
  have hg : fetchGotData w s.xact = true := by
    simp only [fetchGotData, hfl, hlast, hack, Bool.and_true, decide_eq_true_eq]
    omega
  have hev : fifoReadEvents w s.xact 96 12 =
      lenReads 1 ++
        (if 12 < L ∧ L ≤ 36 then [Event.pinDbgToggle DbgPin.DBP_MPU6050_2] else []) ++
        [Event.i2cRead MPU6050_ADDRESS MPU_RA_FIFO_R_W (L : Int)] := by
    have hmin : min (96 : Int) (L : Int) = (L : Int) := by omega
    have hne : ¬ ((L : Nat) : Int) = 0 := by omega
    simp only [fifoReadEvents, hretry, hlast, hlen, hmin, hne, lenReads, if_false,
      Bool.false_eq_true, List.append_nil, MPU6050_ADDRESS, MPU_RA_FIFO_R_W, Nat.cast_lt_ofNat,
      Nat.ofNat_lt_cast, Nat.cast_le_ofNat]
  refine ⟨{ s with
      xact := s.xact + 2
      trace := s.trace ++ (fifoReadEvents w s.xact 96 12 ++
        consumerCalls (w.byte (s.xact + 1)) (L / 12)) },
    (mpu6050GyroAccFetch_eq w s).trans ?_, ?_, ?_, by decide, by decide⟩
  · have hL0 : L ≠ 0 := by omega
    simp [hg, hfl, hlast, hmul, hL0]
  · simp [State.since, hev]
  · simp only [State.since, List.drop_left, writesTo_append, writesTo_fifoReadEvents,
      consumerCalls, writesTo_callsFrom, List.append_nil]

/-- C2 instantiated: a reported length of 24 bytes gives two records and the value 2. -/
theorem mpu6050GyroAccFetch_whole_records_witness :
    0 < 24 ∧ 24 % 12 = 0 ∧ 24 ≤ 96 ∧
    fifoLenAt (worldFifo 0 24 0xFF) (State.initial 0).xact = ((24 : Nat) : Int) ∧
    (worldFifo 0 24 0xFF).ack ((State.initial 0).xact + 1) = true ∧
    ∃ s1 : State,
      mpu6050GyroAccFetch (worldFifo 0 24 0xFF) (State.initial 0) =
        some (((24 / 12 : Nat) : Int), s1) :=
  ⟨by decide, by decide, by decide, by decide, rfl,
    (mpu6050GyroAccFetch_whole_records (worldFifo 0 24 0xFF) (State.initial 0) 24
      (by decide) (by decide) (by decide) (by decide) rfl).imp (fun _ h => h.1)⟩

/-- C3: for every drained length `len` with `0 < len <= 96` that is not a multiple of 12, when
the FIFO length register reports `len` on both attempts and the burst read succeeds,
`mpu6050GyroAccFetch` returns -1 and what it does is, in order: two length reads, the burst
read of `len` bytes, the consumer calls for the `len / 12` complete leading records (each once,
in record order, accelerometer then gyroscope), and last the two writes of `mpu6050FifoFlush`
(FIFO_RESET, then FIFO_EN, to USER_CTRL), so no consumer is called after the flush.  The
consumer calls depend only on the bytes below offset `12 * (len / 12)`. -/
theorem mpu6050GyroAccFetch_torn_frame (w : World) (s : State) (len : Nat)
    (hpos : 0 < len) (hle : len ≤ 96) (hmul : len % 12 ≠ 0)
    (hlen1 : fifoLenAt w s.xact = (len : Int)) (hlen2 : fifoLenAt w (s.xact + 1) = (len : Int))
    (hack : w.ack (s.xact + 2) = true) :
    ∃ s1 : State,
      mpu6050GyroAccFetch w s = some (-1, s1) ∧
      State.since s s1 =
        lenReads 2 ++
          (if 12 < len ∧ len ≤ 36 then [Event.pinDbgToggle DbgPin.DBP_MPU6050_2] else []) ++
          [Event.i2cRead MPU6050_ADDRESS MPU_RA_FIFO_R_W (len : Int)] ++
          consumerCalls (w.byte (s.xact + 2)) (len / 12) ++
          [Event.i2cWrite MPU6050_ADDRESS MPU_RA_USER_CTRL MPU_RF_FIFO_RESET,
           Event.i2cWrite MPU6050_ADDRESS MPU_RA_USER_CTRL MPU_RF_FIFO_EN] ∧
      writesTo MPU_RA_USER_CTRL (State.since s s1) = [MPU_RF_FIFO_RESET, MPU_RF_FIFO_EN] ∧
      (∀ C : Nat → Nat, (∀ j, j < 12 * (len / 12) → C j = w.byte (s.xact + 2) j) →
        consumerCalls C (len / 12) = consumerCalls (w.byte (s.xact + 2)) (len / 12)) := by
  have hretry : fifoRetry w s.xact 96 12 = true := by
    apply decide_eq_true
    rw [hlen1]
    omega
  have hlast : fifoLastRead w s.xact 96 12 = s.xact + 1 := by simp [fifoLastRead, hretry]
  have hfl : fetchLen w s.xact = len := by
    unfold fetchLen
    rw [hlast, hlen2]
    omega
  have hg : fetchGotData w s.xact = true := by
    simp only [fetchGotData, hfl, hlast, hack, Bool.and_true, decide_eq_true_eq]
    omega
  have hev : fifoReadEvents w s.xact 96 12 =
      lenReads 2 ++
        (if 12 < len ∧ len ≤ 36 then [Event.pinDbgToggle DbgPin.DBP_MPU6050_2] else []) ++
        [Event.i2cRead MPU6050_ADDRESS MPU_RA_FIFO_R_W (len : Int)] := by
    have hmin : min (96 : Int) (len : Int) = (len : Int) := by omega
    have hne : ¬ ((len : Nat) : Int) = 0 := by omega
    simp only [fifoReadEvents, hretry, hlast, hlen2, hmin, hne, lenReads, if_false, if_true,
      List.append_nil, MPU6050_ADDRESS, MPU_RA_FIFO_R_W, Nat.cast_lt_ofNat,
      Nat.ofNat_lt_cast, Nat.cast_le_ofNat]
  have hsince : State.since s { s with
      xact := s.xact + 5
      trace := s.trace ++ (fifoReadEvents w s.xact 96 12 ++
        (consumerCalls (w.byte (s.xact + 2)) (len / 12) ++ flushEvents)) } =
      fifoReadEvents w s.xact 96 12 ++
        (consumerCalls (w.byte (s.xact + 2)) (len / 12) ++ flushEvents) := by
    simp [State.since]
  refine ⟨{ s with
      xact := s.xact + 5
      trace := s.trace ++ (fifoReadEvents w s.xact 96 12 ++
        (consumerCalls (w.byte (s.xact + 2)) (len / 12) ++ flushEvents)) },
    (mpu6050GyroAccFetch_eq w s).trans ?_, ?_, ?_, ?_⟩
  · have hL0 : len ≠ 0 := by omega
    simp [hg, hfl, hlast, hmul, hL0]
  · rw [hsince, hev]
    simp [flushEvents, MPU6050_ADDRESS, MPU_RA_USER_CTRL, MPU_RF_FIFO_RESET, MPU_RF_FIFO_EN]
  · rw [hsince]
    simp only [writesTo_append, writesTo_fifoReadEvents, consumerCalls, writesTo_callsFrom,
      List.nil_append]
    rfl
  · intro C hC
    unfold consumerCalls
    apply callsFrom_congr
    intro j _ hj
    exact hC j (by omega)

/-- C3 instantiated: a reported length of 30 bytes dispatches two records, flushes and
returns -1. -/
theorem mpu6050GyroAccFetch_torn_frame_witness :
    0 < 30 ∧ 30 ≤ 96 ∧ 30 % 12 ≠ 0 ∧
    fifoLenAt (worldFifo 0 30 0xFF) (State.initial 0).xact = ((30 : Nat) : Int) ∧
    fifoLenAt (worldFifo 0 30 0xFF) ((State.initial 0).xact + 1) = ((30 : Nat) : Int) ∧
    (worldFifo 0 30 0xFF).ack ((State.initial 0).xact + 2) = true ∧
    ∃ s1 : State,
      mpu6050GyroAccFetch (worldFifo 0 30 0xFF) (State.initial 0) = some (-1, s1) ∧
      writesTo MPU_RA_USER_CTRL (State.since (State.initial 0) s1) =
        [MPU_RF_FIFO_RESET, MPU_RF_FIFO_EN] :=
  ⟨by decide, by decide, by decide, by decide, by decide, rfl,
    (mpu6050GyroAccFetch_torn_frame (worldFifo 0 30 0xFF) (State.initial 0) 30
      (by decide) (by decide) (by decide) (by decide) (by decide) rfl).imp
      (fun _ h => ⟨h.1, h.2.2.1⟩)⟩

/-! ## Direct sample reads on a failed bus read (C11) -/

/-- C11: when the 6-byte burst read fails, `mpu6050AccRead` and `mpu6050GyroRead` leave the
caller's output buffer exactly as it was before the call (all of it, so in particular its three
elements), for every prior content; the only thing done is the one 6-byte read. -/
theorem mpu6050AccRead_GyroRead_failed_read (w : World) (s : State)
    (accData gyroData : Nat → Int) (hnack : w.ack s.xact = false) :
    (mpu6050AccRead w s accData).1 = accData ∧
    (∀ i, i < 3 → (mpu6050AccRead w s accData).1 i = accData i) ∧
    (mpu6050AccRead w s accData).2.trace =
      s.trace ++ [Event.i2cRead MPU6050_ADDRESS MPU_RA_ACCEL_XOUT_H 6] ∧
    (mpu6050GyroRead w s gyroData).1 = gyroData ∧
    (∀ i, i < 3 → (mpu6050GyroRead w s gyroData).1 i = gyroData i) ∧
    (mpu6050GyroRead w s gyroData).2.trace =
      s.trace ++ [Event.i2cRead MPU6050_ADDRESS MPU_RA_GYRO_XOUT_H 6] := by
  have ha : (mpu6050AccRead w s accData).1 = accData := by
    simp [mpu6050AccRead, i2cRead, hnack]
  have hg : (mpu6050GyroRead w s gyroData).1 = gyroData := by
    simp [mpu6050GyroRead, i2cRead, hnack]
  refine ⟨ha, fun i _ => by rw [ha], ?_, hg, fun i _ => by rw [hg], ?_⟩
  · simp [mpu6050AccRead, i2cRead, hnack]
  · simp [mpu6050GyroRead, i2cRead, hnack]

/-- C11 instantiated: on a bus that acknowledges nothing, an output array holding 1, 2, 3 still
holds 1, 2, 3 after both reads. -/
theorem mpu6050AccRead_GyroRead_failed_read_witness :
    worldSilent.ack (State.initial 0).xact = false ∧
    (mpu6050AccRead worldSilent (State.initial 0) outBlank).1 = outBlank ∧
    (mpu6050GyroRead worldSilent (State.initial 0) outBlank).1 = outBlank :=
  have h := mpu6050AccRead_GyroRead_failed_read worldSilent (State.initial 0) outBlank outBlank
    rfl
  ⟨rfl, h.1, h.2.2.2.1⟩

/-! ## The configuration sequence (C12) -/

/-- C12: with the optional FIFO and data-ready features disabled, what `mpu6050GyroInit` does
to the outside is exactly, in this order: PWR_MGMT_1 = 0x80, a delay of 100 ms,
PWR_MGMT_1 = 0x03, SMPLRT_DIV = 7 (no-filter setting current) or 0, CONFIG = the current filter
setting, GYRO_CONFIG = 0x18, ACCEL_CONFIG = 0x10, INT_PIN_CFG = 0x02; the register addresses
are 0x6B, 0x19, 0x1A, 0x1B, 0x1C, 0x37; and two buses that differ in the results of the
individual writes see the same sequence. -/
theorem mpu6050GyroInit_write_sequence (w w2 : World) (s : State) :
    State.since s (mpu6050GyroInit buildPlain w s) =
      [Event.i2cWrite MPU6050_ADDRESS MPU_RA_PWR_MGMT_1 0x80,
       Event.delay 100,
       Event.i2cWrite MPU6050_ADDRESS MPU_RA_PWR_MGMT_1 0x03,
       Event.i2cWrite MPU6050_ADDRESS MPU_RA_SMPLRT_DIV
         (if s.mpuLowPassFilter = INV_FILTER_256HZ_NOLPF2 then 7 else 0),
       Event.i2cWrite MPU6050_ADDRESS MPU_RA_CONFIG s.mpuLowPassFilter,
       Event.i2cWrite MPU6050_ADDRESS MPU_RA_GYRO_CONFIG 0x18,
       Event.i2cWrite MPU6050_ADDRESS MPU_RA_ACCEL_CONFIG 0x10,
       Event.i2cWrite MPU6050_ADDRESS MPU_RA_INT_PIN_CFG 0x02] ∧
    [MPU_RA_PWR_MGMT_1, MPU_RA_SMPLRT_DIV, MPU_RA_CONFIG, MPU_RA_GYRO_CONFIG,
      MPU_RA_ACCEL_CONFIG, MPU_RA_INT_PIN_CFG] = [0x6B, 0x19, 0x1A, 0x1B, 0x1C, 0x37] ∧
    State.since s (mpu6050GyroInit buildPlain w s) =
      State.since s (mpu6050GyroInit buildPlain w2 s) ∧
    (mpu6050GyroInit buildPlain w s).xact = s.xact + 7 := by
  have hg : gpioInitEvents buildPlain s = [] := by
    unfold gpioInitEvents
    split_ifs
    · rfl
    · cases s.mpu6050Config <;> rfl
  have h1 := State.since_append _ _ _ (mpu6050GyroInit_trace buildPlain w s)
  have h2 := State.since_append _ _ _ (mpu6050GyroInit_trace buildPlain w2 s)
  refine ⟨?_, by decide, by rw [h1, h2], ?_⟩
  · rw [h1, hg]
    simp [buildPlain, MPU6050_ADDRESS, MPU_RA_PWR_MGMT_1, MPU_RA_SMPLRT_DIV, MPU_RA_CONFIG,
      MPU_RA_GYRO_CONFIG, MPU_RA_ACCEL_CONFIG, MPU_RA_INT_PIN_CFG, INV_FILTER_256HZ_NOLPF2]
  · have hfifo : buildPlain.ACCGYRO_FIFO = false := rfl
    have hrdy : buildPlain.USE_MPU_DATA_READY_SIGNAL = false := rfl
    simp only [mpu6050GyroInit, i2cWrite, delay, State.emit, hfifo, hrdy, Bool.false_eq_true,
      if_false]
    split_ifs <;> simp [mpu6050GpioInit_xact]

/-! ## The queue length (C13) -/

/-- C13: `mpu6050GetFifoLen` makes one 2-byte read of FIFO_COUNTH and returns the two bytes
`hi`, `lo` found in its buffer as the unsigned big-endian number `256 * hi + lo`, which lies in
the range 0..65535 (never negative). -/
theorem mpu6050GetFifoLen_big_endian (w : World) (s : State) :
    (mpu6050GetFifoLen w s).2.trace =
      s.trace ++ [Event.i2cRead MPU6050_ADDRESS MPU_RA_FIFO_COUNTH 2] ∧
    (mpu6050GetFifoLen w s).1 = ((256 * w.byte s.xact 0 + w.byte s.xact 1 : Nat) : Int) ∧
    0 ≤ (mpu6050GetFifoLen w s).1 ∧ (mpu6050GetFifoLen w s).1 ≤ 65535 := by
  have he : (mpu6050GetFifoLen w s).1 = fifoLenAt w s.xact := by
    rw [mpu6050GetFifoLen_eq]
  have hr := fifoLenAt_range w s.xact
  refine ⟨?_, ?_, ?_, ?_⟩
  · rw [mpu6050GetFifoLen_eq]
    simp [MPU6050_ADDRESS, MPU_RA_FIFO_COUNTH]
  · rw [he, fifoLenAt_eq]
  · rw [he]
    exact hr.1
  · rw [he]
    exact hr.2

/-! ## Bounded resynchronisation (C14) -/

/-- C14: for every `maxLen` and every `recordSize > 0`, a call of `mpu6050FifoRead` reads the
queue-length register at least once and at most twice, as its first transactions; it reads it
a second time if and only if the first reported length `R1` satisfies `R1 < maxLen` and
`R1 mod recordSize != 0`; the second value `R2`, when read, is accepted whatever it is: the
result of the call is then decided by `min(maxLen, R2)` and the burst read alone. -/
theorem mpu6050FifoRead_two_attempts (w : World) (s : State) (buffer : ByteBuf)
    (maxLen recordSize : Int) (hrec : 0 < recordSize) :
    readsOf MPU_RA_FIFO_COUNTH
        (State.since s (mpu6050FifoRead w s buffer maxLen recordSize).2.2) =
      (if fifoLenAt w s.xact < maxLen ∧ fifoLenAt w s.xact % recordSize ≠ 0 then [2, 2]
       else [2]) ∧
    1 ≤ (readsOf MPU_RA_FIFO_COUNTH
        (State.since s (mpu6050FifoRead w s buffer maxLen recordSize).2.2)).length ∧
    (readsOf MPU_RA_FIFO_COUNTH
        (State.since s (mpu6050FifoRead w s buffer maxLen recordSize).2.2)).length ≤ 2 ∧
    (∃ rest : List Event,
      State.since s (mpu6050FifoRead w s buffer maxLen recordSize).2.2 =
        lenReads (if fifoLenAt w s.xact < maxLen ∧ fifoLenAt w s.xact % recordSize ≠ 0 then 2
          else 1) ++ rest ∧
      readsOf MPU_RA_FIFO_COUNTH rest = []) ∧
    ((fifoLenAt w s.xact < maxLen ∧ fifoLenAt w s.xact % recordSize ≠ 0) →
      (mpu6050FifoRead w s buffer maxLen recordSize).1 =
        (if min maxLen (fifoLenAt w (s.xact + 1)) = 0 then 0
         else if w.ack (s.xact + 2) = true then min maxLen (fifoLenAt w (s.xact + 1))
         else -1)) ∧
    (¬ (fifoLenAt w s.xact < maxLen ∧ fifoLenAt w s.xact % recordSize ≠ 0) →
      (mpu6050FifoRead w s buffer maxLen recordSize).1 =
        (if min maxLen (fifoLenAt w s.xact) = 0 then 0
         else if w.ack (s.xact + 1) = true then min maxLen (fifoLenAt w s.xact)
         else -1)) := by
  have hret := mpu6050FifoRead_ret w s buffer maxLen recordSize hrec
  obtain ⟨k, -, hlast, -, hsince⟩ := mpu6050FifoRead_run w s buffer maxLen recordSize hrec
  have hk : k = (if fifoLenAt w s.xact < maxLen ∧ fifoLenAt w s.xact % recordSize ≠ 0 then 1
      else 0) := by
    have hl : fifoLastRead w s.xact maxLen recordSize =
        (if fifoLenAt w s.xact < maxLen ∧ fifoLenAt w s.xact % recordSize ≠ 0 then s.xact + 1
         else s.xact) := by
      simp only [fifoLastRead, fifoRetry, decide_eq_true_eq]
    rw [hl] at hlast
    split_ifs at hlast ⊢ <;> omega
  have hrest : readsOf MPU_RA_FIFO_COUNTH
      ((if 12 < min maxLen (fifoLenAt w (s.xact + k)) ∧
            min maxLen (fifoLenAt w (s.xact + k)) ≤ 36
          then [Event.pinDbgToggle DbgPin.DBP_MPU6050_2] else []) ++
        (if min maxLen (fifoLenAt w (s.xact + k)) = 0 then []
          else [Event.i2cRead 0x68 0x74 (min maxLen (fifoLenAt w (s.xact + k)))])) = [] := by
    split_ifs <;> simp [readsOf, MPU_RA_FIFO_COUNTH]
  have hreads : readsOf MPU_RA_FIFO_COUNTH
      (State.since s (mpu6050FifoRead w s buffer maxLen recordSize).2.2) =
        List.replicate (k + 1) 2 := by
    rw [hsince, readsOf_append, hrest, readsOf_lenReads_count, List.append_nil]
  by_cases hc : fifoLenAt w s.xact < maxLen ∧ fifoLenAt w s.xact % recordSize ≠ 0
  · rw [if_pos hc] at hk
    subst hk
    have hl : fifoLastRead w s.xact maxLen recordSize = s.xact + 1 := hlast
    refine ⟨?_, ?_, ?_, ⟨_, ?_, hrest⟩, ?_, ?_⟩
    · rw [hreads, if_pos hc]
      rfl
    · rw [hreads]
      simp
    · rw [hreads]
      simp
    · rw [hsince, if_pos hc]
    · intro _
      rw [hret, hl]
    · intro hn
      exact absurd hc hn
  · rw [if_neg hc] at hk
    subst hk
    have hl : fifoLastRead w s.xact maxLen recordSize = s.xact := hlast
    refine ⟨?_, ?_, ?_, ⟨_, ?_, hrest⟩, ?_, ?_⟩
    · rw [hreads, if_neg hc]
      rfl
    · rw [hreads]
      simp
    · rw [hreads]
      simp
    · rw [hsince, if_neg hc]
    · intro h
      exact absurd h hc
    · intro _
      rw [hret, hl]

/-- C14 instantiated: a first reported length of 30 (below 96, not a multiple of 12) makes the
call read the length register exactly twice. -/
theorem mpu6050FifoRead_two_attempts_witness :
    (0 : Int) < 12 ∧
    readsOf MPU_RA_FIFO_COUNTH
        (State.since (State.initial 0)
          (mpu6050FifoRead (worldFifo 0 30 0) (State.initial 0) ⟨fun _ => 0⟩ 96 12).2.2) =
      [2, 2] :=
  have h := mpu6050FifoRead_two_attempts (worldFifo 0 30 0) (State.initial 0) ⟨fun _ => 0⟩ 96 12
    (by decide)
  ⟨by decide, h.1.trans (if_pos (by decide))⟩

/-! ## Fault reporting of the fetch (C15) -/

/-- C15: `mpu6050GyroAccFetch` always returns, and it returns -1 if and only if the length
returned by `mpu6050FifoRead` is positive and not a multiple of 12.  In particular, when
`mpu6050FifoRead` returns -1 (the burst read failed) `mpu6050GyroAccFetch` returns 0, the value
it also returns when `mpu6050FifoRead` returns 0 (empty queue); it then does nothing after the
drain: no consumer is called and nothing is written to USER_CTRL (no flush). -/
theorem mpu6050GyroAccFetch_fault_iff (w : World) (s : State) :
    ∃ (v : Int) (s1 : State), mpu6050GyroAccFetch w s = some (v, s1) ∧
      (v = -1 ↔ (0 < (mpu6050FifoRead w s (localBuf w s) 96 12).1 ∧
        (mpu6050FifoRead w s (localBuf w s) 96 12).1 % 12 ≠ 0)) ∧
      ((mpu6050FifoRead w s (localBuf w s) 96 12).1 = 0 → v = 0) ∧
      ((mpu6050FifoRead w s (localBuf w s) 96 12).1 = -1 →
        v = 0 ∧ s1 = (mpu6050FifoRead w s (localBuf w s) 96 12).2.2 ∧
        accCalls (State.since s s1) = 0 ∧ gyroCalls (State.since s s1) = 0 ∧
        writesTo MPU_RA_USER_CTRL (State.since s s1) = []) := by
  have heq := mpu6050GyroAccFetch_eq w s
  have hret := fetch_drain_ret w s
  have hst := fetch_drain_state w s
  by_cases h0 : fetchLen w s.xact = 0
  · have hg : fetchGotData w s.xact = false := by simp [fetchGotData, h0]
    rw [hg] at heq
    rw [if_pos h0] at hret
    refine ⟨_, _, heq, ?_, ?_, ?_⟩
    · rw [hret]
      simp
    · intro _
      simp
    · intro h
      rw [hret] at h
      omega
  · cases hack : w.ack (fifoLastRead w s.xact 96 12 + 1)
    · have hg : fetchGotData w s.xact = false := by simp [fetchGotData, hack]
      rw [hg] at heq
      rw [if_neg h0, hack] at hret
      refine ⟨_, _, heq, ?_, ?_, ?_⟩
      · rw [hret]
        simp
      · intro _
        simp
      · intro _
        refine ⟨by simp, ?_, ?_, ?_, ?_⟩
        · rw [hst]
          simp [h0]
        · simp [State.since, accCalls_fifoReadEvents]
        · simp [State.since, gyroCalls_fifoReadEvents]
        · simp [State.since, writesTo_fifoReadEvents]
    · have hg : fetchGotData w s.xact = true := by simp [fetchGotData, hack, h0]
      rw [hg] at heq
      rw [if_neg h0, hack] at hret
      refine ⟨_, _, heq, ?_, ?_, ?_⟩
      · rw [hret]
        simp only [if_true]
        by_cases hr : fetchLen w s.xact % 12 = 0
        · rw [if_pos hr]
          constructor
          · intro h
            omega
          · intro h
            omega
        · rw [if_neg hr]
          constructor
          · intro _
            omega
          · intro _
            rfl
      · intro h
        rw [hret] at h
        simp only [if_true] at h
        omega
      · intro h
        rw [hret] at h
        simp only [if_true] at h
        omega

/-- C15 instantiated: the queue reports 96 bytes and the burst read is not acknowledged;
`mpu6050FifoRead` returns -1 and `mpu6050GyroAccFetch` returns 0. -/
theorem mpu6050GyroAccFetch_fault_iff_witness :
    (mpu6050FifoRead worldBurstFails (State.initial 0)
      (localBuf worldBurstFails (State.initial 0)) 96 12).1 = -1 ∧
    ∃ s1 : State, mpu6050GyroAccFetch worldBurstFails (State.initial 0) = some (0, s1) :=
  ⟨by decide,
    let ⟨_, s1, h, _, _, hf⟩ := mpu6050GyroAccFetch_fault_iff worldBurstFails (State.initial 0)
    ⟨s1, (hf (by decide)).1 ▸ h⟩⟩

/-! ## Bounds of the deframing loop (C16) -/

/-- C16, the claim as stated fails: the queue reports 96 bytes (a length `>= 96`) and the burst
read is not acknowledged; `mpu6050GyroAccFetch` returns 0, not 8, and dispatches no record. -/
theorem mpu6050GyroAccFetch_bounds_counterexample :
    96 ≤ fifoLenAt worldBurstFails (State.initial 0).xact ∧
    (∃ s1 : State, mpu6050GyroAccFetch worldBurstFails (State.initial 0) = some (0, s1) ∧
      accCalls (State.since (State.initial 0) s1) = 0 ∧
      gyroCalls (State.since (State.initial 0) s1) = 0) ∧
    ¬ ∃ s1 : State, mpu6050GyroAccFetch worldBurstFails (State.initial 0) = some (8, s1) := by
  have heq := mpu6050GyroAccFetch_eq worldBurstFails (State.initial 0)
  have hg : fetchGotData worldBurstFails (State.initial 0).xact = false := by decide
  rw [hg] at heq
  refine ⟨by decide, ⟨_, heq, ?_, ?_⟩, ?_⟩
  · simp [State.since, accCalls_fifoReadEvents]
  · simp [State.since, gyroCalls_fifoReadEvents]
  · rintro ⟨s1, h⟩
    rw [heq] at h
    simp at h

/-- C16 as amended: for every reported queue length and every bus outcome, `mpu6050GyroAccFetch`
returns (no record outside the 8 records of `gyroAccBuffer` is accessed), every read of the
FIFO data register requests at most 96 bytes, at most 8 records are dispatched, and the value
returned lies in -1..8; when the queue length accepted by the drain is `>= 96` and the burst
read is acknowledged, exactly 8 records are dispatched and the value returned is 8.  The accepted
length is the first one reported, unless that is below 96 and not a multiple of 12, in which
case it is the second. -/
theorem mpu6050GyroAccFetch_bounds (w : World) (s : State) :
    ∃ (v : Int) (s1 : State), mpu6050GyroAccFetch w s = some (v, s1) ∧
      (∀ l ∈ readsOf MPU_RA_FIFO_R_W (State.since s s1), l ≤ 96) ∧
      accCalls (State.since s s1) ≤ 8 ∧ gyroCalls (State.since s s1) ≤ 8 ∧
      (-1 ≤ v ∧ v ≤ 8) ∧
      (96 ≤ fifoLenAt w s.xact → w.ack (s.xact + 1) = true →
        v = 8 ∧ accCalls (State.since s s1) = 8 ∧ gyroCalls (State.since s s1) = 8) ∧
      (fifoLenAt w s.xact < 96 → fifoLenAt w s.xact % 12 ≠ 0 →
        96 ≤ fifoLenAt w (s.xact + 1) → w.ack (s.xact + 2) = true →
        v = 8 ∧ accCalls (State.since s s1) = 8 ∧ gyroCalls (State.since s s1) = 8) := by
  have heq := mpu6050GyroAccFetch_eq w s
  obtain ⟨hm, hm96⟩ := fetchLen_eq w s.xact
  have hdiv : fetchLen w s.xact / 12 ≤ 8 := by omega
  have hreads : ∀ l ∈ readsOf MPU_RA_FIFO_R_W (fifoReadEvents w s.xact 96 12), l ≤ 96 := by
    intro l hl
    unfold fifoReadEvents at hl
    simp only [readsOf_append] at hl
    rw [hm] at hl
    split_ifs at hl <;>
      simp [lenReadEvents, readsOf, MPU_RA_FIFO_R_W] at hl <;> omega
  have hfull : ∀ k : Nat, fifoLastRead w s.xact 96 12 = s.xact + k →
      96 ≤ fifoLenAt w (s.xact + k) → w.ack (s.xact + k + 1) = true →
      fetchGotData w s.xact = true ∧ fetchLen w s.xact = 96 := by
    intro k hk h96 hack
    have hl : fetchLen w s.xact = 96 := by
      unfold fetchLen
      rw [hk]
      omega
    refine ⟨?_, hl⟩
    simp [fetchGotData, hl, hk, hack]
  have hcase1 : 96 ≤ fifoLenAt w s.xact → w.ack (s.xact + 1) = true →
      fetchGotData w s.xact = true ∧ fetchLen w s.xact = 96 := by
    intro h96 hack
    have hr : fifoRetry w s.xact 96 12 = false := by
      apply decide_eq_false
      omega
    exact hfull 0 (by simp [fifoLastRead, hr]) h96 hack
  have hcase2 : fifoLenAt w s.xact < 96 → fifoLenAt w s.xact % 12 ≠ 0 →
      96 ≤ fifoLenAt w (s.xact + 1) → w.ack (s.xact + 2) = true →
      fetchGotData w s.xact = true ∧ fetchLen w s.xact = 96 := by
    intro hlt hmod h96 hack
    have hr : fifoRetry w s.xact 96 12 = true := decide_eq_true ⟨hlt, hmod⟩
    exact hfull 1 (by simp [fifoLastRead, hr]) h96 hack
  cases hg : fetchGotData w s.xact
  · rw [hg] at heq hcase1 hcase2
    refine ⟨_, _, heq, ?_, ?_, ?_, ?_, ?_, ?_⟩
    · simpa [State.since] using hreads
    · simp [State.since, accCalls_fifoReadEvents]
    · simp [State.since, gyroCalls_fifoReadEvents]
    · simp
    · intro h96 hack
      exact absurd (hcase1 h96 hack).1 (by simp)
    · intro hlt hmod h96 hack
      exact absurd (hcase2 hlt hmod h96 hack).1 (by simp)
  · rw [hg] at heq
    have hacc : accCalls (State.since s
        { s with
          xact := fifoLastRead w s.xact 96 12 + 1 + (if fetchLen w s.xact = 0 then 0 else 1) +
            (if true = true ∧ fetchLen w s.xact % 12 ≠ 0 then 2 else 0)
          trace := s.trace ++ (fifoReadEvents w s.xact 96 12 ++
            (if true = true then
              consumerCalls (w.byte (fifoLastRead w s.xact 96 12 + 1)) (fetchLen w s.xact / 12) ++
                (if fetchLen w s.xact % 12 = 0 then [] else flushEvents)
             else [])) }) = fetchLen w s.xact / 12 := by
      simp only [State.since, List.drop_left, if_true, accCalls, List.countP_append]
      have h1 := accCalls_fifoReadEvents w s.xact 96 12
      have h2 := accCalls_callsFrom (w.byte (fifoLastRead w s.xact 96 12 + 1))
        (fetchLen w s.xact / 12) 0
      unfold accCalls at h1 h2
      unfold consumerCalls
      rw [h1, h2]
      split_ifs <;> simp [flushEvents, List.countP_cons, Event.isAcc]
    have hgyro : gyroCalls (State.since s
        { s with
          xact := fifoLastRead w s.xact 96 12 + 1 + (if fetchLen w s.xact = 0 then 0 else 1) +
            (if true = true ∧ fetchLen w s.xact % 12 ≠ 0 then 2 else 0)
          trace := s.trace ++ (fifoReadEvents w s.xact 96 12 ++
            (if true = true then
              consumerCalls (w.byte (fifoLastRead w s.xact 96 12 + 1)) (fetchLen w s.xact / 12) ++
                (if fetchLen w s.xact % 12 = 0 then [] else flushEvents)
             else [])) }) = fetchLen w s.xact / 12 := by
      simp only [State.since, List.drop_left, if_true, gyroCalls, List.countP_append]
      have h1 := gyroCalls_fifoReadEvents w s.xact 96 12
      have h2 := gyroCalls_callsFrom (w.byte (fifoLastRead w s.xact 96 12 + 1))
        (fetchLen w s.xact / 12) 0
      unfold gyroCalls at h1 h2
      unfold consumerCalls
      rw [h1, h2]
      split_ifs <;> simp [flushEvents, List.countP_cons, Event.isGyro]
    refine ⟨_, _, heq, ?_, ?_, ?_, ?_, ?_, ?_⟩
    · intro l hl
      simp only [State.since, List.drop_left, if_true, readsOf_append, consumerCalls,
        readsOf_callsFrom, List.nil_append, List.mem_append] at hl
      rcases hl with hl | hl
      · exact hreads l hl
      · split_ifs at hl <;> simp [flushEvents, readsOf] at hl
    · rw [hacc]
      exact hdiv
    · rw [hgyro]
      exact hdiv
    · simp only [if_true]
      split_ifs <;> omega
    · intro h96 hack
      have hl := (hcase1 h96 hack).2
      rw [hacc, hgyro, hl]
      simp
    · intro hlt hmod h96 hack
      have hl := (hcase2 hlt hmod h96 hack).2
      rw [hacc, hgyro, hl]
      simp

/-- C16 as amended, instantiated: the queue reports 96 bytes and every transaction is
acknowledged; the value returned is 8. -/
theorem mpu6050GyroAccFetch_bounds_witness :
    96 ≤ fifoLenAt (worldFifo 0 96 0) (State.initial 0).xact ∧
    (worldFifo 0 96 0).ack ((State.initial 0).xact + 1) = true ∧
    ∃ s1 : State, mpu6050GyroAccFetch (worldFifo 0 96 0) (State.initial 0) = some (8, s1) :=
  ⟨by decide, rfl,
    let ⟨_, s1, h, _, _, _, _, hfull, _⟩ :=
      mpu6050GyroAccFetch_bounds (worldFifo 0 96 0) (State.initial 0)
    ⟨s1, (hfull (by decide) rfl).1 ▸ h⟩⟩

/-! ## Failed detection (C17) -/

/-- C17: when `mpu6050Detect` fails, `mpu6050GyroDetect` returns false, leaves the caller's
`gyro_t` as it was (no init/read callback, no scale) and, for every requested cutoff, leaves
the filter setting unchanged; `mpu6050AccDetect` returns false, leaves the caller's `acc_t` as
it was and the resolution variant unchanged, and reads neither the self-test block nor the
product-id register.  Of the driver's variables only the stored configuration pointer is
updated; the only things done to the outside are the 35 ms delay and the WHO_AM_I read. -/
theorem detect_failed_changes_only_config (w : World) (s : State)
    (configToUse : Option mpu6050Config_t) (acc : acc_t) (gyro : gyro_t) (lpf : Nat)
    (hfail : (mpu6050Detect w { s with mpu6050Config := configToUse }).1 = false) :
    mpu6050GyroDetect w s configToUse gyro lpf =
      (false, gyro,
        { s with
          mpu6050Config := configToUse
          xact := s.xact + 1
          trace := s.trace ++ [Event.delay 35,
            Event.i2cRead MPU6050_ADDRESS MPU_RA_WHO_AM_I 1] }) ∧
    (mpu6050GyroDetect w s configToUse gyro lpf).2.2.mpuLowPassFilter = s.mpuLowPassFilter ∧
    (mpu6050GyroDetect w s configToUse gyro lpf).2.1 = gyro ∧
    mpu6050AccDetect w s configToUse acc =
      (some false, acc,
        { s with
          mpu6050Config := configToUse
          xact := s.xact + 1
          trace := s.trace ++ [Event.delay 35,
            Event.i2cRead MPU6050_ADDRESS MPU_RA_WHO_AM_I 1] }) ∧
    (mpu6050AccDetect w s configToUse acc).2.2.mpuAccelTrim = s.mpuAccelTrim ∧
    (mpu6050AccDetect w s configToUse acc).2.1 = acc ∧
    readsOf MPU_RA_XA_OFFS_H
      (State.since s (mpu6050AccDetect w s configToUse acc).2.2) = [] ∧
    readsOf MPU_RA_PRODUCT_ID
      (State.since s (mpu6050AccDetect w s configToUse acc).2.2) = [] := by
  have hst := mpu6050Detect_state w { s with mpu6050Config := configToUse }
  have hg : mpu6050GyroDetect w s configToUse gyro lpf =
      (false, gyro,
        { s with
          mpu6050Config := configToUse
          xact := s.xact + 1
          trace := s.trace ++ [Event.delay 35,
            Event.i2cRead MPU6050_ADDRESS MPU_RA_WHO_AM_I 1] }) := by
    simp only [mpu6050GyroDetect, hfail, hst, Bool.not_false, if_true]
  have ha : mpu6050AccDetect w s configToUse acc =
      (some false, acc,
        { s with
          mpu6050Config := configToUse
          xact := s.xact + 1
          trace := s.trace ++ [Event.delay 35,
            Event.i2cRead MPU6050_ADDRESS MPU_RA_WHO_AM_I 1] }) := by
    simp only [mpu6050AccDetect, hfail, hst, Bool.not_false, if_true]
  refine ⟨hg, by rw [hg], by rw [hg], ha, by rw [ha], by rw [ha], ?_, ?_⟩
  · rw [ha]
    simp [State.since, readsOf, MPU_RA_XA_OFFS_H, MPU_RA_WHO_AM_I]
  · rw [ha]
    simp [State.since, readsOf, MPU_RA_PRODUCT_ID, MPU_RA_WHO_AM_I]

/-- C17 instantiated: on a bus that acknowledges nothing, a request for the disable sentinel
leaves the initial 42 Hz setting in place. -/
theorem detect_failed_changes_only_config_witness :
    (mpu6050Detect worldSilent { State.initial 0 with mpu6050Config := some ⟨13⟩ }).1 = false ∧
    (mpu6050GyroDetect worldSilent (State.initial 0) (some ⟨13⟩) gyroBlank
      0xFFFF).2.2.mpuLowPassFilter = INV_FILTER_42HZ ∧
    (mpu6050GyroDetect worldSilent (State.initial 0) (some ⟨13⟩) gyroBlank
      0xFFFF).2.2.mpu6050Config = some ⟨13⟩ :=
  have h := detect_failed_changes_only_config worldSilent (State.initial 0) (some ⟨13⟩) accBlank
    gyroBlank 0xFFFF (by decide)
  ⟨by decide, h.2.1, by rw [h.1]⟩

end MPU6050
